import Mathlib

/-!
# PIANO-METRONOME firmware: touch sensing, gesture resolution and mode machine

A shallow embedding of `src/Piano-Metronome/PIANO-METRONOME.c`.

* The globals of the C file are the fields of `State`, under their C names.
* `unsigned char` values are natural numbers; every store into one is reduced
  modulo 256 (`u8`).  Expressions are evaluated as the C compiler does, after
  integer promotion, in `Int`.
* The four-element arrays are functions `Fin 4 → Nat`; `setAt` is the array store.
* The hardware inputs are explicit: `TMR0` (one oscillator count per sensor and
  poll) and the two reads of the button pin `S1` made by one loop iteration.
* The tone registers `TMR2ON`, `PR2`, `CCPR1L` and the power registers
  `SWDTEN`, `CPSON` are part of the state.  `SLEEP()` and the busy-wait delays
  change no variable or register of the state and take no part in it.
-/

namespace PianoMetronome

/-! ## Machine arithmetic -/

/-- Conversion of a promoted `int` value to `unsigned char`. -/
def u8 (x : Int) : Nat := (x % 256).toNat

/-- Conversion of an `int` value to `unsigned int` (16 bits under XC8). -/
def u16 (x : Int) : Nat := (x % 65536).toNat

/-- Array store `a[i] = v` on a four-element array. -/
def setAt (a : Fin 4 → Nat) (i : Fin 4) (v : Nat) : Fin 4 → Nat :=
  fun j => if j = i then v else a j

/-! ## Program state -/

/-- Mode constant `off`. -/
def off : Nat := 0
/-- Mode constant `piano`. -/
def piano : Nat := 1
/-- Mode constant `metronome`. -/
def metronome : Nat := 2

/-- The global variables of the program and the tone registers it writes. -/
structure State where
  Ttemp : Nat
  Tcount : Fin 4 → Nat
  Tavg : Fin 4 → Nat
  Ttrip : Fin 4 → Nat
  Tdelta : Fin 4 → Nat
  Tactive : Nat
  Ttarget : Fin 4 → Nat
  note : Nat
  modeSwitch : Bool
  mode : Nat
  beatOn : Bool
  settingChange : Bool
  beat : Nat
  beats : Nat
  bpm : Nat
  bpmIndex : Nat
  TMR2ON : Bool
  PR2 : Nat
  CCPR1L : Nat
  SWDTEN : Bool
  CPSON : Bool

/-- The state given by the initialisers of the globals (arrays and variables
without initialiser are zero, as C static storage is).  The tone registers,
which the program only writes, start with the timer off; the watchdog is off,
as `main` sets it on entry, and the capacitive sensing module is on, as
`initTouch` and the piano loop, where the program starts, need it. -/
def initialState : State where
  Ttemp := 0
  Tcount := fun _ => 0
  Tavg := fun _ => 0
  Ttrip := fun _ => 0
  Tdelta := fun _ => 0
  Tactive := 0
  Ttarget := fun _ => 0
  note := 0
  modeSwitch := false
  mode := piano
  beatOn := true
  settingChange := false
  beat := 0
  beats := 1
  bpm := 60
  bpmIndex := 0
  TMR2ON := false
  PR2 := 0
  CCPR1L := 0
  SWDTEN := false
  CPSON := true

/-- What one loop iteration reads from the hardware: the oscillator count of
each sensor (`TMR0` after the sensing window) and the level of the button pin
`S1` at its two reads (`true` is level 1, button released; `false` is level 0,
button pressed). -/
structure Input where
  TMR0 : Fin 4 → Nat
  S1a : Bool
  S1b : Bool

/-- Delay table `beatDelay` for 40 to 240 bpm in steps of 5. -/
def beatDelay : List Int :=
  [1500, 1333, 1200, 1091, 1000, 923, 857, 800,
   750, 706, 667, 632, 600, 571, 545, 522,
   500, 480, 462, 444, 429, 414, 400, 387,
   375, 364, 353, 343, 333, 324, 316, 308,
   300, 293, 286, 279, 273, 267, 261, 255,
   250]

/-! ## touchInput -/

/-- Body of the `for` loop of `touchInput` for sensor `i`, with `t` the value
read from `TMR0`. -/
def touchBody (t : Nat) (i : Fin 4) (st : State) : State :=
  let st := { st with Tcount := setAt st.Tcount i (t % 256) }
  let st := { st with Tdelta := setAt st.Tdelta i (u8 ((st.Tavg i : Int) - (st.Tcount i : Int))) }
  let st := { st with Ttrip := setAt st.Ttrip i (u8 ((st.Tavg i : Int) / 8)) }
  if (st.Tcount i : Int) < (st.Tavg i : Int) - (st.Ttrip i : Int) then
    { st with Tactive := (st.Tactive + 1) % 256, Ttarget := setAt st.Ttarget i 1 }
  else
    let st := { st with Ttarget := setAt st.Ttarget i 0 }
    if st.Tcount i > st.Tavg i then
      { st with Tavg := setAt st.Tavg i (st.Tcount i) }
    else
      let avg := u8 ((st.Tavg i : Int) - (st.Tavg i : Int) / 16 + (st.Tcount i : Int) / 16)
      { st with Tavg := setAt st.Tavg i avg }

/-- Function `touchInput`: resets `Tactive`, runs the loop body for the sensors
0, 1, 2, 3 in turn and returns `Tactive`. -/
def touchInput (st : State) (TMR0 : Fin 4 → Nat) : State × Nat :=
  let st := { st with Tactive := 0 }
  let st := [(0 : Fin 4), 1, 2, 3].foldl (fun s i => touchBody (TMR0 i) i s) st
  (st, st.Tactive)

/-- Repeated calls of `touchInput`, one per set of timer readings. -/
def touchRun (st : State) (polls : List (Fin 4 → Nat)) : State :=
  polls.foldl (fun s TMR0 => (touchInput s TMR0).1) st

/-! ## initTouch -/

/-- Inner loop of `initTouch`: the counter `c` runs from its start value down
to 1 and each pass adds the timer reading to the `unsigned int` accumulator
`Ttemp`; `TMR0 c` is the 8-bit reading taken while the counter is `c`. -/
def sampleLoop (TMR0 : Nat → Nat) : Nat → Nat → Nat
  | 0, Ttemp => Ttemp
  | c + 1, Ttemp => sampleLoop TMR0 c ((Ttemp + TMR0 (c + 1) % 256) % 65536)

/-- Body of the outer loop of `initTouch` for sensor `i`: reset `Ttemp`, take
16 readings, store `Ttemp / 16` in `Tavg[i]`. -/
def initBody (TMR0 : Nat → Nat) (i : Fin 4) (st : State) : State :=
  let st := { st with Ttemp := 0 }
  let st := { st with Ttemp := sampleLoop TMR0 16 st.Ttemp }
  { st with Tavg := setAt st.Tavg i ((st.Ttemp / 16) % 256) }

/-- Function `initTouch`: calibrates the sensors 0, 1, 2, 3 in turn;
`TMR0 i c` is the reading of sensor `i` while the inner counter is `c`. -/
def initTouch (st : State) (TMR0 : Fin 4 → Nat → Nat) : State :=
  [(0 : Fin 4), 1, 2, 3].foldl (fun s i => initBody (TMR0 i) i s) st

/-! ## makeBeat and the tempo lookup -/

/-- Function `makeBeat`: high tone on the first beat of the measure, low tone
otherwise, then the beat counter advances and wraps at `beats`.  The delay
loop over `counts` changes no variable. -/
def makeBeat (st : State) (_counts : Nat) : State :=
  let st :=
    if st.beat = 0 then { st with PR2 := 68, CCPR1L := 34, TMR2ON := false }
    else { st with PR2 := 136, CCPR1L := 68, TMR2ON := false }
  let st := { st with beat := (st.beat + 1) % 256 }
  if st.beat = st.beats then { st with beat := 0 } else st

/-- Consecutive calls of `makeBeat`, one per element of `counts`. -/
def beatRun (st : State) (counts : List Nat) : State :=
  counts.foldl makeBeat st

/-- The PWM period `PR2` each of the consecutive calls of `makeBeat` leaves:
68 is the high tone, 136 the low one. -/
def beatTones (st : State) : List Nat → List Nat
  | [] => []
  | c :: rest => (makeBeat st c).PR2 :: beatTones (makeBeat st c) rest

/-- Table lookup of the metronome loop: `bpmIndex = bpm - 40`; entry 0 is read
when that is 0, otherwise `bpmIndex` is divided by 5 and the entry at the
quotient is read.  Gives the final `bpmIndex` and the entry read; a read
outside the 41 entries of the table has no defined value. -/
def beatLookup (bpm : Nat) : Option (Nat × Int) :=
  let bpmIndex := u8 ((bpm : Int) - 40)
  if bpmIndex = 0 then
    (beatDelay.get? 0).map fun d => (bpmIndex, d)
  else
    let bpmIndex := u8 ((bpmIndex : Int) / 5)
    (beatDelay.get? bpmIndex).map fun d => (bpmIndex, d)

/-! ## The three mode loops of main -/

/-- Latch reset shared by the three loops: `if(S1 == 1) modeSwitch = false`. -/
def releaseLatch (st : State) (S1 : Bool) : State :=
  if S1 = true then { st with modeSwitch := false } else st

/-- Start of an iteration of the off loop: `CPSON = 0; SWDTEN = 1; SLEEP();
SWDTEN = 0`. -/
def offNap (st : State) : State :=
  let st := { st with CPSON := false }
  let st := { st with SWDTEN := true }
  { st with SWDTEN := false }

/-- Button check of the off loop: on `S1 == 0 && modeSwitch == 0` the four
assignments `SWDTEN = 0; CPSON = 1; modeSwitch = true; mode = piano`. -/
def offSwitch (st : State) (S1 : Bool) : State :=
  if S1 = false ∧ st.modeSwitch = false then
    { st with SWDTEN := false, CPSON := true, modeSwitch := true, mode := piano }
  else st

/-- Button check of the piano loop. -/
def pianoSwitch (st : State) (S1 : Bool) : State :=
  if S1 = false ∧ st.modeSwitch = false then
    { st with modeSwitch := true, mode := metronome, beatOn := true }
  else st

/-- Button check of the metronome loop. -/
def metronomeSwitch (st : State) (S1 : Bool) : State :=
  if S1 = false ∧ st.modeSwitch = false then
    { st with modeSwitch := true, mode := off }
  else st

/-- One iteration of `while(mode == off)`. -/
def offIter (st : State) (inp : Input) : State :=
  releaseLatch (offSwitch (offNap st) inp.S1a) inp.S1b

/-- Note selection of the piano loop from the result of `touchInput`. -/
def pianoNote (st : State) (active : Nat) : State :=
  if active > 0 then
    if st.Ttarget 0 = 1 ∧ st.Ttarget 1 = 0 then { st with note := 7 }
    else if st.Ttarget 0 = 1 ∧ st.Ttarget 1 = 1 then { st with note := 6 }
    else if st.Ttarget 1 = 1 ∧ st.Ttarget 2 = 0 then { st with note := 5 }
    else if st.Ttarget 1 = 1 ∧ st.Ttarget 2 = 1 then { st with note := 4 }
    else if st.Ttarget 2 = 1 ∧ st.Ttarget 3 = 0 then { st with note := 3 }
    else if st.Ttarget 2 = 1 ∧ st.Ttarget 3 = 1 then { st with note := 2 }
    else if st.Ttarget 3 = 1 then { st with note := 1 }
    else st
  else { st with note := 0 }

/-- Tone output of the piano loop: the chain of comparisons on `note`. -/
def playNote (st : State) : State :=
  if st.note = 8 then { st with TMR2ON := true, PR2 := 68, CCPR1L := 34 }
  else if st.note = 7 then { st with TMR2ON := true, PR2 := 72, CCPR1L := 36 }
  else if st.note = 6 then { st with TMR2ON := true, PR2 := 81, CCPR1L := 40 }
  else if st.note = 5 then { st with TMR2ON := true, PR2 := 91, CCPR1L := 45 }
  else if st.note = 4 then { st with TMR2ON := true, PR2 := 102, CCPR1L := 51 }
  else if st.note = 3 then { st with TMR2ON := true, PR2 := 108, CCPR1L := 54 }
  else if st.note = 2 then { st with TMR2ON := true, PR2 := 121, CCPR1L := 61 }
  else if st.note = 1 then { st with TMR2ON := true, PR2 := 136, CCPR1L := 68 }
  else { st with TMR2ON := false }

/-- One iteration of `while(mode == piano)`. -/
def pianoIter (st : State) (inp : Input) : State :=
  let r := touchInput st inp.TMR0
  let st := pianoNote r.1 r.2
  let st := pianoSwitch st inp.S1a
  let st := releaseLatch st inp.S1b
  playNote st

/-- Touch actions of the metronome loop from the result of `touchInput`. -/
def metronomeTouch (st : State) (active : Nat) : State :=
  if active > 0 then
    if st.Ttarget 0 = 1 ∧ st.settingChange = false then
      let st := { st with settingChange := true }
      let st := { st with beats := (st.beats + 1) % 256 }
      if st.beats ≥ 9 then { st with beats := 1, beat := 0 } else st
    else if st.Ttarget 1 = 1 then
      if st.bpm < 240 then { st with bpm := (st.bpm + 5) % 256 } else st
    else if st.Ttarget 2 = 1 then
      if st.bpm > 60 then { st with bpm := u8 ((st.bpm : Int) - 5) } else st
    else if st.Ttarget 3 = 1 ∧ st.settingChange = false then
      let st := { st with settingChange := true }
      { st with beatOn := !st.beatOn }
    else st
  else { st with settingChange := false }

/-- Touch part of one iteration of the metronome loop: the call of
`touchInput` and the actions taken on its result. -/
def metronomePoll (st : State) (TMR0 : Fin 4 → Nat) : State :=
  let r := touchInput st TMR0
  metronomeTouch r.1 r.2

/-- A sequence of metronome poll cycles, one set of timer readings each. -/
def pollRun (st : State) (polls : List (Fin 4 → Nat)) : State :=
  polls.foldl metronomePoll st

/-- One step of an interleaving of `makeBeat` calls and metronome touch
polls. -/
inductive MetStep where
  | beat (counts : Nat)
  | poll (TMR0 : Fin 4 → Nat)

/-- Effect of one step of an interleaving on the state. -/
def applyStep (st : State) : MetStep → State
  | MetStep.beat counts => makeBeat st counts
  | MetStep.poll TMR0 => metronomePoll st TMR0

/-- Effect of an interleaving of `makeBeat` calls and touch polls. -/
def stepRun (st : State) (steps : List MetStep) : State :=
  steps.foldl applyStep st

/-- Number of poll cycles of a sequence in which `changed` holds between the
state before and the state after the cycle. -/
def countPolls (changed : State → State → Bool) (st : State) : List (Fin 4 → Nat) → Nat
  | [] => 0
  | TMR0 :: rest =>
    (if changed st (metronomePoll st TMR0) = true then 1 else 0) +
      countPolls changed (metronomePoll st TMR0) rest

/-- Every cycle of the sequence has `touchInput() > 0`. -/
def allActive (st : State) : List (Fin 4 → Nat) → Bool
  | [] => true
  | TMR0 :: rest =>
    decide ((touchInput st TMR0).2 > 0) && allActive (metronomePoll st TMR0) rest

/-- Sensor 0 is reported tripped in every cycle of the sequence. -/
def held0 (st : State) : List (Fin 4 → Nat) → Bool
  | [] => true
  | TMR0 :: rest =>
    decide ((touchInput st TMR0).1.Ttarget 0 = 1) && held0 (metronomePoll st TMR0) rest

/-- Beat generation of the metronome loop: when `beatOn`, look the delay up
and call `makeBeat` with the entry minus 20.  It is `none` when the table is
read outside its entries. -/
def metronomeBeat (st : State) : Option State :=
  if st.beatOn = true then
    (beatLookup st.bpm).map fun r =>
      makeBeat { st with bpmIndex := r.1 } (u16 (r.2 - 20))
  else some st

/-- One iteration of `while(mode == metronome)`. -/
def metronomeIter (st : State) (inp : Input) : Option State :=
  (metronomeBeat st).map fun st =>
    let st := metronomeSwitch st inp.S1a
    let st := releaseLatch st inp.S1b
    let r := touchInput st inp.TMR0
    metronomeTouch r.1 r.2

/-- End of an iteration of the metronome loop: when `mode` is no longer
`metronome` the loop exits and the outer `while(1)` starts over with
`SWDTEN = 0`. -/
def outerRestart (st : State) : State :=
  if st.mode = metronome then st else { st with SWDTEN := false }

/-- One iteration of whichever inner loop of `main` the current mode selects,
followed by the restart of the outer loop when it falls through.  With `mode`
outside the three constants no inner loop runs and the outer loop spins,
writing `SWDTEN = 0` only. -/
def mainIter (st : State) (inp : Input) : Option State :=
  if st.mode = off then some (offIter st inp)
  else if st.mode = piano then some (pianoIter st inp)
  else if st.mode = metronome then (metronomeIter st inp).map outerRestart
  else some { st with SWDTEN := false }

/-- Runs the loop of `main` over a sequence of hardware readings, one per
iteration. -/
def run (st : State) : List Input → Option State
  | [] => some st
  | inp :: rest => (mainIter st inp).bind fun st' => run st' rest

/-- Number of iterations of a run in which `mode` changed. -/
def transitions (st : State) : List Input → Option Nat
  | [] => some 0
  | inp :: rest =>
    (mainIter st inp).bind fun st' =>
      (transitions st' rest).map fun n => if st'.mode = st.mode then n else n + 1

/-- A run and its transition count, packaged: the run from `st` over `ins`
ends in `st'` after `n` mode changes. -/
def runsTo (st : State) (ins : List Input) (st' : State) (n : Nat) : Prop :=
  run st ins = some st' ∧ transitions st ins = some n

/-! ## Vocabulary of the specification -/

/-- Precedence table of the piano-mode resolver as the specification words it:
the rows are tried top-down and the first matching row gives the note. -/
def tableNote (s0 s1 s2 s3 : Bool) : Nat :=
  if s0 = true ∧ s1 = false then 7
  else if s0 = true ∧ s1 = true then 6
  else if s1 = true ∧ s2 = false then 5
  else if s1 = true ∧ s2 = true then 4
  else if s2 = true ∧ s3 = false then 3
  else if s2 = true ∧ s3 = true then 2
  else if s3 = true then 1
  else 0

/-- Lowest-index sensor of a tripped pattern, if any. -/
def lowestTripped (p : Fin 4 → Bool) : Option (Fin 4) :=
  [(0 : Fin 4), 1, 2, 3].find? p

/-- Note of a tripped pattern by the closed formula: 0 for the empty pattern,
otherwise `7 - 2*i - t` with `i` the lowest tripped sensor and `t = 1` when
sensor `i + 1` exists and is tripped. -/
def formulaNote (p : Fin 4 → Bool) : Nat :=
  match lowestTripped p with
  | none => 0
  | some i =>
    7 - 2 * i.val -
      (if h : i.val + 1 < 4 then (if p ⟨i.val + 1, h⟩ = true then 1 else 0) else 0)

/-- The tripped pattern with the given four flags. -/
def pattern4 (s0 s1 s2 s3 : Bool) : Fin 4 → Bool :=
  fun i => if i = 0 then s0 else if i = 1 then s1 else if i = 2 then s2 else s3

/-- Successor of a mode in the rotation Off, Piano, Metronome, Off of the
specification. -/
def nextMode (m : Nat) : Nat :=
  if m = off then piano else if m = piano then metronome else off

/-- The three values `mode` takes. -/
def validMode (m : Nat) : Prop := m = off ∨ m = piano ∨ m = metronome

instance (m : Nat) : Decidable (validMode m) := by
  unfold validMode; infer_instance

/-- An iteration that reads the button pressed (level 0 at both reads). -/
def pressed (inp : Input) : Prop := inp.S1a = false ∧ inp.S1b = false

/-- An iteration that reads the button released (level 1 at both reads). -/
def released (inp : Input) : Prop := inp.S1a = true ∧ inp.S1b = true

instance (inp : Input) : Decidable (pressed inp) := by
  unfold pressed; infer_instance

instance (inp : Input) : Decidable (released inp) := by
  unfold released; infer_instance

/-- One complete press-release cycle of the button: at least one iteration
reading it pressed, then at least one reading it released. -/
def isCycle (P R : List Input) : Prop :=
  0 < P.length ∧ (∀ i ∈ P, pressed i) ∧ 0 < R.length ∧ ∀ i ∈ R, released i

instance (P R : List Input) : Decidable (isCycle P R) := by
  unfold isCycle; infer_instance

/-- Tempos for which the table read of the metronome loop stays inside the 41
entries, in 8-bit arithmetic. -/
def inTable (bpm : Nat) : Prop := 40 ≤ bpm ∧ bpm ≤ 244

instance (bpm : Nat) : Decidable (inTable bpm) := by
  unfold inTable; infer_instance

/-- Tempos the metronome can hold: the multiples of 5 from 60 to 240. -/
def tempoInv (bpm : Nat) : Prop := 60 ≤ bpm ∧ bpm ≤ 240 ∧ bpm % 5 = 0

instance (bpm : Nat) : Decidable (tempoInv bpm) := by
  unfold tempoInv; infer_instance

/-- Visible effect of an edge-type action (beats-per-measure adjust or running
toggle): `beats` or `beatOn` differs between the two states. -/
def edgeEffect (s s' : State) : Bool := decide (s'.beats ≠ s.beats ∨ s'.beatOn ≠ s.beatOn)

/-- The two states differ in `beats`. -/
def beatsChanged (s s' : State) : Bool := decide (s'.beats ≠ s.beats)

/-- Sum of the 16 calibration readings of one sensor. -/
def sampleSum (TMR0 : Nat → Nat) : Nat :=
  Finset.sum (Finset.range 16) fun k => TMR0 (k + 1)

/-- Range of the measure settings: `beats` in 1..8 and `beat` below `beats`. -/
def beatInv (st : State) : Prop := 1 ≤ st.beats ∧ st.beats ≤ 8 ∧ st.beat < st.beats

/-! ## Concrete inputs used to exercise the statements -/

/-- A state after calibration in which every baseline is 100. -/
def calibrated : State := { initialState with Tavg := fun _ => 100 }

/-- Timer readings with sensor 0 touched (count 50) and the others at rest. -/
def touch0 : Fin 4 → Nat := fun i => if i = 0 then 50 else 100

/-- Timer readings with no sensor touched and sensor 1 reading above its
baseline. -/
def rest1 : Fin 4 → Nat := fun i => if i = 1 then 120 else 96

/-- Timer readings that trip exactly the sensors selected by `p` when every
baseline is 100. -/
def patternCounts (p : Fin 4 → Bool) : Fin 4 → Nat := fun i => if p i = true then 0 else 100

/-- An iteration with the button pressed and all sensors at rest. -/
def pressIn : Input := ⟨fun _ => 100, false, false⟩

/-- An iteration with the button released and all sensors at rest. -/
def releaseIn : Input := ⟨fun _ => 100, true, true⟩

/-- The initial state put in mode `off`. -/
def asleep : State := { initialState with mode := off }

/-- The sleeping state at the button check of the off loop, after the loop has
switched the capacitive sensing module off. -/
def dozing : State := offNap asleep

/-- Timer readings with sensor 1 touched and the others at rest. -/
def touch1 : Fin 4 → Nat := fun i => if i = 1 then 50 else 100

/-- Timer readings with sensors 0 and 1 touched and the others at rest. -/
def touch01 : Fin 4 → Nat := fun i => if i = 0 ∨ i = 1 then 50 else 100

/-- Timer readings with sensor 3 touched and the others at rest. -/
def touch3 : Fin 4 → Nat := fun i => if i = 3 then 50 else 100

/-- Calibration readings: sensor `i` reads `90 + i` on odd passes and
`91 + i` on even ones. -/
def calibCounts : Fin 4 → Nat → Nat := fun i c => 90 + i.val + (c + 1) % 2

/-- A state in which every baseline is 128. -/
def settled128 : State := { initialState with Tavg := fun _ => 128 }

/-- Timer readings with every sensor at 112. -/
def steady112 : Fin 4 → Nat := fun _ => 112

/-- The calibrated state with eight beats per measure, at beat 5. -/
def eightBeats : State := { calibrated with beats := 8, beat := 5 }

/-! ## Per-sensor view of touchInput -/

/-- Trip test of the loop body as a function of the baseline and the timer
reading of one sensor. -/
def sensorTripped (avg t : Nat) : Prop :=
  ((t % 256 : Nat) : Int) < (avg : Int) - ((u8 ((avg : Int) / 8) : Nat) : Int)

instance (avg t : Nat) : Decidable (sensorTripped avg t) := by
  unfold sensorTripped; infer_instance

/-- Baseline the loop body leaves for one sensor. -/
def sensorAvg (avg t : Nat) : Nat :=
  if sensorTripped avg t then avg
  else if t % 256 > avg then t % 256
  else u8 ((avg : Int) - (avg : Int) / 16 + ((t % 256 : Nat) : Int) / 16)

@[simp] theorem setAt_same (a : Fin 4 → Nat) (i : Fin 4) (v : Nat) : setAt a i v i = v := by
  simp [setAt]

theorem setAt_apply (a : Fin 4 → Nat) (i j : Fin 4) (v : Nat) :
    setAt a i v j = if j = i then v else a j := rfl

theorem u8_of_nat (n : Nat) (h : n < 256) : u8 (n : Int) = n := by
  unfold u8
  omega

theorem touchBody_Tavg (t : Nat) (i j : Fin 4) (st : State) :
    (touchBody t i st).Tavg j = if j = i then sensorAvg (st.Tavg i) t else st.Tavg j := by
  unfold touchBody sensorAvg sensorTripped
  by_cases hji : j = i
  · subst hji
    simp only [setAt_same, if_true]
    split_ifs <;> simp_all
  · simp only [setAt_same, hji, if_false]
    split_ifs <;> simp [setAt_apply, hji]

theorem touchBody_Ttarget (t : Nat) (i j : Fin 4) (st : State) :
    (touchBody t i st).Ttarget j =
      if j = i then (if sensorTripped (st.Tavg i) t then 1 else 0) else st.Ttarget j := by
  unfold touchBody sensorTripped
  by_cases hji : j = i
  · subst hji
    simp only [setAt_same, if_true]
    split_ifs <;> simp_all
  · simp only [setAt_same, hji, if_false]
    split_ifs <;> simp [setAt_apply, hji]

theorem touchBody_Ttrip (t : Nat) (i j : Fin 4) (st : State) :
    (touchBody t i st).Ttrip j =
      if j = i then u8 ((st.Tavg i : Int) / 8) else st.Ttrip j := by
  unfold touchBody
  simp only [setAt_same]
  split_ifs <;> simp_all [setAt_apply]

theorem touchBody_Tactive (t : Nat) (i : Fin 4) (st : State) :
    (touchBody t i st).Tactive =
      if sensorTripped (st.Tavg i) t then (st.Tactive + 1) % 256 else st.Tactive := by
  unfold touchBody sensorTripped
  simp only [setAt_same]
  split_ifs <;> simp_all

theorem touchInput_Tavg (st : State) (TMR0 : Fin 4 → Nat) (i : Fin 4) :
    (touchInput st TMR0).1.Tavg i = sensorAvg (st.Tavg i) (TMR0 i) := by
  unfold touchInput
  fin_cases i <;> simp [List.foldl, touchBody_Tavg]

theorem touchInput_Ttarget (st : State) (TMR0 : Fin 4 → Nat) (i : Fin 4) :
    (touchInput st TMR0).1.Ttarget i =
      if sensorTripped (st.Tavg i) (TMR0 i) then 1 else 0 := by
  unfold touchInput
  fin_cases i <;> simp [List.foldl, touchBody_Ttarget, touchBody_Tavg]

theorem touchInput_Ttrip (st : State) (TMR0 : Fin 4 → Nat) (i : Fin 4) :
    (touchInput st TMR0).1.Ttrip i = u8 ((st.Tavg i : Int) / 8) := by
  unfold touchInput
  fin_cases i <;> simp [List.foldl, touchBody_Ttrip, touchBody_Tavg]

theorem touchInput_snd (st : State) (TMR0 : Fin 4 → Nat) :
    (touchInput st TMR0).2 = (touchInput st TMR0).1.Tactive := rfl

theorem touchInput_Tactive (st : State) (TMR0 : Fin 4 → Nat) :
    (touchInput st TMR0).1.Tactive =
      (if sensorTripped (st.Tavg 0) (TMR0 0) then 1 else 0) +
      (if sensorTripped (st.Tavg 1) (TMR0 1) then 1 else 0) +
      (if sensorTripped (st.Tavg 2) (TMR0 2) then 1 else 0) +
      (if sensorTripped (st.Tavg 3) (TMR0 3) then 1 else 0) := by
  unfold touchInput
  simp only [List.foldl, touchBody_Tactive, touchBody_Tavg]
  by_cases h0 : sensorTripped (st.Tavg 0) (TMR0 0) <;>
  by_cases h1 : sensorTripped (st.Tavg 1) (TMR0 1) <;>
  by_cases h2 : sensorTripped (st.Tavg 2) (TMR0 2) <;>
  by_cases h3 : sensorTripped (st.Tavg 3) (TMR0 3) <;>
  simp [h0, h1, h2, h3]

/-- Trip test on in-range values, in natural-number arithmetic. -/
theorem sensorTripped_iff (b s : Nat) (hb : b < 256) (hs : s < 256) :
    sensorTripped b s ↔ s < b - b / 8 := by
  unfold sensorTripped u8
  omega

theorem sensorAvg_of_not_tripped (b s : Nat) (hb : b < 256) (hs : s < 256)
    (hu : ¬ sensorTripped b s) :
    sensorAvg b s = if s > b then s else b - b / 16 + s / 16 := by
  unfold sensorAvg
  rw [if_neg hu, Nat.mod_eq_of_lt hs]
  split_ifs with h
  · rfl
  · unfold u8
    omega

/-! ## Which variables each fragment leaves alone -/

theorem touchBody_keeps (t : Nat) (i : Fin 4) (st : State) :
    (touchBody t i st).Ttemp = st.Ttemp ∧
    (touchBody t i st).note = st.note ∧
    (touchBody t i st).modeSwitch = st.modeSwitch ∧
    (touchBody t i st).mode = st.mode ∧
    (touchBody t i st).beatOn = st.beatOn ∧
    (touchBody t i st).settingChange = st.settingChange ∧
    (touchBody t i st).beat = st.beat ∧
    (touchBody t i st).beats = st.beats ∧
    (touchBody t i st).bpm = st.bpm ∧
    (touchBody t i st).bpmIndex = st.bpmIndex ∧
    (touchBody t i st).TMR2ON = st.TMR2ON ∧
    (touchBody t i st).PR2 = st.PR2 ∧
    (touchBody t i st).CCPR1L = st.CCPR1L := by
  unfold touchBody
  try dsimp only
  split_ifs <;> simp

theorem pianoNote_keeps (st : State) (active : Nat) :
    (pianoNote st active).Ttemp = st.Ttemp ∧
    (pianoNote st active).Tcount = st.Tcount ∧
    (pianoNote st active).Tavg = st.Tavg ∧
    (pianoNote st active).Ttrip = st.Ttrip ∧
    (pianoNote st active).Tdelta = st.Tdelta ∧
    (pianoNote st active).Tactive = st.Tactive ∧
    (pianoNote st active).Ttarget = st.Ttarget ∧
    (pianoNote st active).modeSwitch = st.modeSwitch ∧
    (pianoNote st active).mode = st.mode ∧
    (pianoNote st active).beatOn = st.beatOn ∧
    (pianoNote st active).settingChange = st.settingChange ∧
    (pianoNote st active).beat = st.beat ∧
    (pianoNote st active).beats = st.beats ∧
    (pianoNote st active).bpm = st.bpm ∧
    (pianoNote st active).bpmIndex = st.bpmIndex ∧
    (pianoNote st active).TMR2ON = st.TMR2ON ∧
    (pianoNote st active).PR2 = st.PR2 ∧
    (pianoNote st active).CCPR1L = st.CCPR1L := by
  unfold pianoNote
  try dsimp only
  split_ifs <;> simp

theorem playNote_keeps (st : State) :
    (playNote st).Ttemp = st.Ttemp ∧
    (playNote st).Tcount = st.Tcount ∧
    (playNote st).Tavg = st.Tavg ∧
    (playNote st).Ttrip = st.Ttrip ∧
    (playNote st).Tdelta = st.Tdelta ∧
    (playNote st).Tactive = st.Tactive ∧
    (playNote st).Ttarget = st.Ttarget ∧
    (playNote st).note = st.note ∧
    (playNote st).modeSwitch = st.modeSwitch ∧
    (playNote st).mode = st.mode ∧
    (playNote st).beatOn = st.beatOn ∧
    (playNote st).settingChange = st.settingChange ∧
    (playNote st).beat = st.beat ∧
    (playNote st).beats = st.beats ∧
    (playNote st).bpm = st.bpm ∧
    (playNote st).bpmIndex = st.bpmIndex := by
  unfold playNote
  try dsimp only
  split_ifs <;> simp

theorem releaseLatch_keeps (st : State) (S1 : Bool) :
    (releaseLatch st S1).Ttemp = st.Ttemp ∧
    (releaseLatch st S1).Tcount = st.Tcount ∧
    (releaseLatch st S1).Tavg = st.Tavg ∧
    (releaseLatch st S1).Ttrip = st.Ttrip ∧
    (releaseLatch st S1).Tdelta = st.Tdelta ∧
    (releaseLatch st S1).Tactive = st.Tactive ∧
    (releaseLatch st S1).Ttarget = st.Ttarget ∧
    (releaseLatch st S1).note = st.note ∧
    (releaseLatch st S1).mode = st.mode ∧
    (releaseLatch st S1).beatOn = st.beatOn ∧
    (releaseLatch st S1).settingChange = st.settingChange ∧
    (releaseLatch st S1).beat = st.beat ∧
    (releaseLatch st S1).beats = st.beats ∧
    (releaseLatch st S1).bpm = st.bpm ∧
    (releaseLatch st S1).bpmIndex = st.bpmIndex ∧
    (releaseLatch st S1).TMR2ON = st.TMR2ON ∧
    (releaseLatch st S1).PR2 = st.PR2 ∧
    (releaseLatch st S1).CCPR1L = st.CCPR1L := by
  unfold releaseLatch
  try dsimp only
  split_ifs <;> simp

theorem offNap_keeps (st : State) :
    (offNap st).Ttemp = st.Ttemp ∧
    (offNap st).Tcount = st.Tcount ∧
    (offNap st).Tavg = st.Tavg ∧
    (offNap st).Ttrip = st.Ttrip ∧
    (offNap st).Tdelta = st.Tdelta ∧
    (offNap st).Tactive = st.Tactive ∧
    (offNap st).Ttarget = st.Ttarget ∧
    (offNap st).note = st.note ∧
    (offNap st).modeSwitch = st.modeSwitch ∧
    (offNap st).mode = st.mode ∧
    (offNap st).beatOn = st.beatOn ∧
    (offNap st).settingChange = st.settingChange ∧
    (offNap st).beat = st.beat ∧
    (offNap st).beats = st.beats ∧
    (offNap st).bpm = st.bpm ∧
    (offNap st).bpmIndex = st.bpmIndex ∧
    (offNap st).TMR2ON = st.TMR2ON ∧
    (offNap st).PR2 = st.PR2 ∧
    (offNap st).CCPR1L = st.CCPR1L := by
  simp [offNap]

theorem outerRestart_keeps (st : State) :
    (outerRestart st).Ttemp = st.Ttemp ∧
    (outerRestart st).Tcount = st.Tcount ∧
    (outerRestart st).Tavg = st.Tavg ∧
    (outerRestart st).Ttrip = st.Ttrip ∧
    (outerRestart st).Tdelta = st.Tdelta ∧
    (outerRestart st).Tactive = st.Tactive ∧
    (outerRestart st).Ttarget = st.Ttarget ∧
    (outerRestart st).note = st.note ∧
    (outerRestart st).modeSwitch = st.modeSwitch ∧
    (outerRestart st).mode = st.mode ∧
    (outerRestart st).beatOn = st.beatOn ∧
    (outerRestart st).settingChange = st.settingChange ∧
    (outerRestart st).beat = st.beat ∧
    (outerRestart st).beats = st.beats ∧
    (outerRestart st).bpm = st.bpm ∧
    (outerRestart st).bpmIndex = st.bpmIndex ∧
    (outerRestart st).TMR2ON = st.TMR2ON ∧
    (outerRestart st).PR2 = st.PR2 ∧
    (outerRestart st).CCPR1L = st.CCPR1L ∧
    (outerRestart st).CPSON = st.CPSON := by
  unfold outerRestart
  split_ifs <;> simp

theorem offSwitch_keeps (st : State) (S1 : Bool) :
    (offSwitch st S1).Ttemp = st.Ttemp ∧
    (offSwitch st S1).Tcount = st.Tcount ∧
    (offSwitch st S1).Tavg = st.Tavg ∧
    (offSwitch st S1).Ttrip = st.Ttrip ∧
    (offSwitch st S1).Tdelta = st.Tdelta ∧
    (offSwitch st S1).Tactive = st.Tactive ∧
    (offSwitch st S1).Ttarget = st.Ttarget ∧
    (offSwitch st S1).note = st.note ∧
    (offSwitch st S1).beatOn = st.beatOn ∧
    (offSwitch st S1).settingChange = st.settingChange ∧
    (offSwitch st S1).beat = st.beat ∧
    (offSwitch st S1).beats = st.beats ∧
    (offSwitch st S1).bpm = st.bpm ∧
    (offSwitch st S1).bpmIndex = st.bpmIndex ∧
    (offSwitch st S1).TMR2ON = st.TMR2ON ∧
    (offSwitch st S1).PR2 = st.PR2 ∧
    (offSwitch st S1).CCPR1L = st.CCPR1L := by
  unfold offSwitch
  try dsimp only
  split_ifs <;> simp

theorem pianoSwitch_keeps (st : State) (S1 : Bool) :
    (pianoSwitch st S1).Ttemp = st.Ttemp ∧
    (pianoSwitch st S1).Tcount = st.Tcount ∧
    (pianoSwitch st S1).Tavg = st.Tavg ∧
    (pianoSwitch st S1).Ttrip = st.Ttrip ∧
    (pianoSwitch st S1).Tdelta = st.Tdelta ∧
    (pianoSwitch st S1).Tactive = st.Tactive ∧
    (pianoSwitch st S1).Ttarget = st.Ttarget ∧
    (pianoSwitch st S1).note = st.note ∧
    (pianoSwitch st S1).settingChange = st.settingChange ∧
    (pianoSwitch st S1).beat = st.beat ∧
    (pianoSwitch st S1).beats = st.beats ∧
    (pianoSwitch st S1).bpm = st.bpm ∧
    (pianoSwitch st S1).bpmIndex = st.bpmIndex ∧
    (pianoSwitch st S1).TMR2ON = st.TMR2ON ∧
    (pianoSwitch st S1).PR2 = st.PR2 ∧
    (pianoSwitch st S1).CCPR1L = st.CCPR1L := by
  unfold pianoSwitch
  try dsimp only
  split_ifs <;> simp

theorem metronomeSwitch_keeps (st : State) (S1 : Bool) :
    (metronomeSwitch st S1).Ttemp = st.Ttemp ∧
    (metronomeSwitch st S1).Tcount = st.Tcount ∧
    (metronomeSwitch st S1).Tavg = st.Tavg ∧
    (metronomeSwitch st S1).Ttrip = st.Ttrip ∧
    (metronomeSwitch st S1).Tdelta = st.Tdelta ∧
    (metronomeSwitch st S1).Tactive = st.Tactive ∧
    (metronomeSwitch st S1).Ttarget = st.Ttarget ∧
    (metronomeSwitch st S1).note = st.note ∧
    (metronomeSwitch st S1).beatOn = st.beatOn ∧
    (metronomeSwitch st S1).settingChange = st.settingChange ∧
    (metronomeSwitch st S1).beat = st.beat ∧
    (metronomeSwitch st S1).beats = st.beats ∧
    (metronomeSwitch st S1).bpm = st.bpm ∧
    (metronomeSwitch st S1).bpmIndex = st.bpmIndex ∧
    (metronomeSwitch st S1).TMR2ON = st.TMR2ON ∧
    (metronomeSwitch st S1).PR2 = st.PR2 ∧
    (metronomeSwitch st S1).CCPR1L = st.CCPR1L := by
  unfold metronomeSwitch
  try dsimp only
  split_ifs <;> simp

theorem makeBeat_keeps (st : State) (counts : Nat) :
    (makeBeat st counts).Ttemp = st.Ttemp ∧
    (makeBeat st counts).Tcount = st.Tcount ∧
    (makeBeat st counts).Tavg = st.Tavg ∧
    (makeBeat st counts).Ttrip = st.Ttrip ∧
    (makeBeat st counts).Tdelta = st.Tdelta ∧
    (makeBeat st counts).Tactive = st.Tactive ∧
    (makeBeat st counts).Ttarget = st.Ttarget ∧
    (makeBeat st counts).note = st.note ∧
    (makeBeat st counts).modeSwitch = st.modeSwitch ∧
    (makeBeat st counts).mode = st.mode ∧
    (makeBeat st counts).beatOn = st.beatOn ∧
    (makeBeat st counts).settingChange = st.settingChange ∧
    (makeBeat st counts).beats = st.beats ∧
    (makeBeat st counts).bpm = st.bpm ∧
    (makeBeat st counts).bpmIndex = st.bpmIndex := by
  unfold makeBeat
  try dsimp only
  split_ifs <;> simp

theorem metronomeTouch_keeps (st : State) (active : Nat) :
    (metronomeTouch st active).Ttemp = st.Ttemp ∧
    (metronomeTouch st active).Tcount = st.Tcount ∧
    (metronomeTouch st active).Tavg = st.Tavg ∧
    (metronomeTouch st active).Ttrip = st.Ttrip ∧
    (metronomeTouch st active).Tdelta = st.Tdelta ∧
    (metronomeTouch st active).Tactive = st.Tactive ∧
    (metronomeTouch st active).Ttarget = st.Ttarget ∧
    (metronomeTouch st active).note = st.note ∧
    (metronomeTouch st active).modeSwitch = st.modeSwitch ∧
    (metronomeTouch st active).mode = st.mode ∧
    (metronomeTouch st active).bpmIndex = st.bpmIndex ∧
    (metronomeTouch st active).TMR2ON = st.TMR2ON ∧
    (metronomeTouch st active).PR2 = st.PR2 ∧
    (metronomeTouch st active).CCPR1L = st.CCPR1L := by
  unfold metronomeTouch
  try dsimp only
  split_ifs <;> simp

theorem touchInput_keeps (st : State) (TMR0 : Fin 4 → Nat) :
    (touchInput st TMR0).1.Ttemp = st.Ttemp ∧
    (touchInput st TMR0).1.note = st.note ∧
    (touchInput st TMR0).1.modeSwitch = st.modeSwitch ∧
    (touchInput st TMR0).1.mode = st.mode ∧
    (touchInput st TMR0).1.beatOn = st.beatOn ∧
    (touchInput st TMR0).1.settingChange = st.settingChange ∧
    (touchInput st TMR0).1.beat = st.beat ∧
    (touchInput st TMR0).1.beats = st.beats ∧
    (touchInput st TMR0).1.bpm = st.bpm ∧
    (touchInput st TMR0).1.bpmIndex = st.bpmIndex ∧
    (touchInput st TMR0).1.TMR2ON = st.TMR2ON ∧
    (touchInput st TMR0).1.PR2 = st.PR2 ∧
    (touchInput st TMR0).1.CCPR1L = st.CCPR1L := by
  unfold touchInput
  simp [List.foldl, touchBody_keeps]

/-! ## Touch classifier and baseline tracker -/

/-- C1: for a baseline `b` and a sample `s` in 0..255, `touchInput` sets
`Ttarget[i]` to 1 exactly when `s < b - b/8` and to 0 otherwise; the stored
margin `Ttrip[i]` is `b/8`, the promoted threshold `Tavg[i] - Ttrip[i]` is the
natural number `b - b/8` (no wrap-around) and lies in `0..b`; with `b < 8` the
margin is 0 and the sensor trips exactly when `s < b`. -/
theorem touchInput_trip_iff (st : State) (TMR0 : Fin 4 → Nat) (i : Fin 4)
    (hb : st.Tavg i < 256) (hs : TMR0 i < 256) :
    ((touchInput st TMR0).1.Ttarget i = 1 ↔ TMR0 i < st.Tavg i - st.Tavg i / 8) ∧
    ((touchInput st TMR0).1.Ttarget i = 0 ↔ ¬ TMR0 i < st.Tavg i - st.Tavg i / 8) ∧
    (touchInput st TMR0).1.Ttrip i = st.Tavg i / 8 ∧
    ((st.Tavg i : Int) - ((touchInput st TMR0).1.Ttrip i : Int)
      = ((st.Tavg i - st.Tavg i / 8 : Nat) : Int)) ∧
    (0 : Int) ≤ (st.Tavg i : Int) - ((touchInput st TMR0).1.Ttrip i : Int) ∧
    (st.Tavg i : Int) - ((touchInput st TMR0).1.Ttrip i : Int) ≤ (st.Tavg i : Int) ∧
    (st.Tavg i < 8 → (touchInput st TMR0).1.Ttrip i = 0 ∧
      ((touchInput st TMR0).1.Ttarget i = 1 ↔ TMR0 i < st.Tavg i)) := by
  have htrip : (touchInput st TMR0).1.Ttrip i = st.Tavg i / 8 := by
    rw [touchInput_Ttrip]
    unfold u8
    omega
  have hiff := sensorTripped_iff (st.Tavg i) (TMR0 i) hb hs
  rw [touchInput_Ttarget, htrip]
  refine ⟨?_, ?_, rfl, ?_, ?_, ?_, ?_⟩
  · rw [← hiff]; split_ifs with h <;> simp [h]
  · rw [← hiff]; split_ifs with h <;> simp [h]
  · omega
  · omega
  · omega
  · intro h8
    have hz : st.Tavg i / 8 = 0 := by omega
    refine ⟨hz, ?_⟩
    have hsub : st.Tavg i - st.Tavg i / 8 = st.Tavg i := by omega
    rw [hsub] at hiff
    rw [← hiff]
    split_ifs with h <;> simp [h]

/-- Sensor 0 of `calibrated` read at 50 is tripped: an instance of C1. -/
theorem touchInput_trip_iff_witness :
    (calibrated.Tavg 0 < 256 ∧ touch0 0 < 256) ∧
    (touchInput calibrated touch0).1.Ttarget 0 = 1 :=
  ⟨by decide,
   (touchInput_trip_iff calibrated touch0 0 (by decide) (by decide)).1.2 (by decide)⟩

/-- C2: for an untripped sensor with baseline `b` and sample `s` in 0..255,
`touchInput` sets the new baseline to `s` when `s > b` and to
`b - b/16 + s/16` otherwise; the promoted value of that expression lies in
0..255, so the stored baseline is below 256 without wrap-around. -/
theorem touchInput_untripped_baseline (st : State) (TMR0 : Fin 4 → Nat) (i : Fin 4)
    (hb : st.Tavg i < 256) (hs : TMR0 i < 256)
    (hu : (touchInput st TMR0).1.Ttarget i = 0) :
    (TMR0 i > st.Tavg i → (touchInput st TMR0).1.Tavg i = TMR0 i) ∧
    (¬ TMR0 i > st.Tavg i →
      (touchInput st TMR0).1.Tavg i = st.Tavg i - st.Tavg i / 16 + TMR0 i / 16 ∧
      (0 : Int) ≤ (st.Tavg i : Int) - (st.Tavg i : Int) / 16 + (TMR0 i : Int) / 16 ∧
      (st.Tavg i : Int) - (st.Tavg i : Int) / 16 + (TMR0 i : Int) / 16 < 256) ∧
    (touchInput st TMR0).1.Tavg i < 256 := by
  have hnt : ¬ sensorTripped (st.Tavg i) (TMR0 i) := by
    intro h
    rw [touchInput_Ttarget, if_pos h] at hu
    exact absurd hu (by decide)
  have havg := sensorAvg_of_not_tripped (st.Tavg i) (TMR0 i) hb hs hnt
  rw [touchInput_Tavg, havg]
  refine ⟨?_, ?_, ?_⟩
  · intro h
    rw [if_pos h]
  · intro h
    rw [if_neg h]
    refine ⟨rfl, ?_, ?_⟩ <;> omega
  · split_ifs <;> omega

/-- Sensor 1 of `calibrated` read at 120 is untripped and its baseline snaps
to 120: an instance of C2. -/
theorem touchInput_untripped_baseline_witness :
    (calibrated.Tavg 1 < 256 ∧ rest1 1 < 256 ∧
      (touchInput calibrated rest1).1.Ttarget 1 = 0) ∧
    (touchInput calibrated rest1).1.Tavg 1 = 120 :=
  ⟨by decide,
   (touchInput_untripped_baseline calibrated rest1 1 (by decide) (by decide)
      (by decide)).1 (by decide)⟩

/-- C3: a sensor that `touchInput` reports tripped keeps the baseline it had
before the call, and the new baseline of any sensor `j` is determined by the
old baseline of `j` and the sample of `j` alone. -/
theorem touchInput_frozen_baseline (st : State) (TMR0 : Fin 4 → Nat) (i : Fin 4)
    (ht : (touchInput st TMR0).1.Ttarget i = 1) :
    (touchInput st TMR0).1.Tavg i = st.Tavg i ∧
    ∀ (st2 : State) (TMR2 : Fin 4 → Nat) (j : Fin 4),
      st2.Tavg j = st.Tavg j → TMR2 j = TMR0 j →
      (touchInput st2 TMR2).1.Tavg j = (touchInput st TMR0).1.Tavg j := by
  constructor
  · have htr : sensorTripped (st.Tavg i) (TMR0 i) := by
      by_contra h
      rw [touchInput_Ttarget, if_neg h] at ht
      exact absurd ht (by decide)
    rw [touchInput_Tavg]
    unfold sensorAvg
    rw [if_pos htr]
  · intro st2 TMR2 j h1 h2
    rw [touchInput_Tavg, touchInput_Tavg, h1, h2]

/-- Sensor 0 of `calibrated` read at 50 is tripped and keeps baseline 100: an
instance of C3. -/
theorem touchInput_frozen_baseline_witness :
    (touchInput calibrated touch0).1.Ttarget 0 = 1 ∧
    (touchInput calibrated touch0).1.Tavg 0 = 100 :=
  ⟨by decide, (touchInput_frozen_baseline calibrated touch0 0 (by decide)).1⟩

/-- C4: when the sample `s` is at least the baseline `b` (both in 0..255) the
sensor is untripped and the baseline after `touchInput` is not smaller than
`b`: it is `s` when `s > b` and `b` when `s = b`. -/
theorem touchInput_snap_up (st : State) (TMR0 : Fin 4 → Nat) (i : Fin 4)
    (hb : st.Tavg i < 256) (hs : TMR0 i < 256) (hge : st.Tavg i ≤ TMR0 i) :
    (touchInput st TMR0).1.Ttarget i = 0 ∧
    st.Tavg i ≤ (touchInput st TMR0).1.Tavg i ∧
    (st.Tavg i < TMR0 i → (touchInput st TMR0).1.Tavg i = TMR0 i) ∧
    (TMR0 i = st.Tavg i → (touchInput st TMR0).1.Tavg i = st.Tavg i) := by
  have hnt : ¬ sensorTripped (st.Tavg i) (TMR0 i) := by
    rw [sensorTripped_iff _ _ hb hs]
    omega
  have havg := sensorAvg_of_not_tripped (st.Tavg i) (TMR0 i) hb hs hnt
  rw [touchInput_Ttarget, touchInput_Tavg, havg, if_neg hnt]
  refine ⟨rfl, ?_, ?_, ?_⟩
  · split_ifs <;> omega
  · intro h
    rw [if_pos h]
  · intro h
    rw [if_neg (by omega), h]
    omega

/-- Sensor 1 of `calibrated` read at 120: the baseline rises from 100 to 120,
an instance of C4. -/
theorem touchInput_snap_up_witness :
    (calibrated.Tavg 1 < 256 ∧ rest1 1 < 256 ∧ calibrated.Tavg 1 ≤ rest1 1) ∧
    calibrated.Tavg 1 ≤ (touchInput calibrated rest1).1.Tavg 1 :=
  ⟨by decide,
   (touchInput_snap_up calibrated rest1 1 (by decide) (by decide) (by decide)).2.1⟩

/-- C5: the value `touchInput` returns is the `Tactive` it stores, equals the
number of sensors with `Ttarget[i] = 1` after the call, is at most 4, and is
the same whatever `Tactive` and `Ttarget` held before the call. -/
theorem touchInput_active_count (st : State) (TMR0 : Fin 4 → Nat) :
    (touchInput st TMR0).2 = (touchInput st TMR0).1.Tactive ∧
    (touchInput st TMR0).2 =
      (Finset.univ.filter fun i : Fin 4 => (touchInput st TMR0).1.Ttarget i = 1).card ∧
    (touchInput st TMR0).2 ≤ 4 ∧
    ∀ (a : Nat) (tg : Fin 4 → Nat),
      (touchInput { st with Tactive := a, Ttarget := tg } TMR0).2 = (touchInput st TMR0).2 := by
  refine ⟨rfl, ?_, ?_, ?_⟩
  · rw [touchInput_snd, touchInput_Tactive, Finset.card_filter, Fin.sum_univ_four]
    simp only [touchInput_Ttarget]
    by_cases h0 : sensorTripped (st.Tavg 0) (TMR0 0) <;>
    by_cases h1 : sensorTripped (st.Tavg 1) (TMR0 1) <;>
    by_cases h2 : sensorTripped (st.Tavg 2) (TMR0 2) <;>
    by_cases h3 : sensorTripped (st.Tavg 3) (TMR0 3) <;>
    simp [h0, h1, h2, h3]
  · rw [touchInput_snd, touchInput_Tactive]
    split_ifs <;> omega
  · intro a tg
    rw [touchInput_snd, touchInput_snd, touchInput_Tactive, touchInput_Tactive]

/-! ## Piano-mode gesture resolver -/

theorem pianoIter_note (st : State) (inp : Input) :
    (pianoIter st inp).note =
      (pianoNote (touchInput st inp.TMR0).1 (touchInput st inp.TMR0).2).note := by
  simp [pianoIter, playNote_keeps, releaseLatch_keeps, pianoSwitch_keeps]

theorem pianoIter_Ttarget (st : State) (inp : Input) :
    (pianoIter st inp).Ttarget = (touchInput st inp.TMR0).1.Ttarget := by
  simp [pianoIter, playNote_keeps, releaseLatch_keeps, pianoSwitch_keeps, pianoNote_keeps]

/-- C6: after an iteration of the piano loop, `note` is the note of the first
matching row of the precedence table for the pattern held in `Ttarget` (0 when
no row matches); every `Ttarget[i]` is 0 or 1; the pattern with all four
sensors tripped gives note 6; and each of the 16 patterns is produced by some
readings. -/
theorem pianoIter_note_table (st : State) (inp : Input) :
    (pianoIter st inp).note =
      tableNote (decide ((pianoIter st inp).Ttarget 0 = 1))
        (decide ((pianoIter st inp).Ttarget 1 = 1))
        (decide ((pianoIter st inp).Ttarget 2 = 1))
        (decide ((pianoIter st inp).Ttarget 3 = 1)) ∧
    (∀ i, (pianoIter st inp).Ttarget i = 0 ∨ (pianoIter st inp).Ttarget i = 1) ∧
    ((∀ i, (pianoIter st inp).Ttarget i = 1) → (pianoIter st inp).note = 6) ∧
    (∀ p : Fin 4 → Bool, ∃ (st2 : State) (inp2 : Input),
      ∀ i, (pianoIter st2 inp2).Ttarget i = 1 ↔ p i = true) := by
  have hnote : (pianoIter st inp).note =
      tableNote (decide ((pianoIter st inp).Ttarget 0 = 1))
        (decide ((pianoIter st inp).Ttarget 1 = 1))
        (decide ((pianoIter st inp).Ttarget 2 = 1))
        (decide ((pianoIter st inp).Ttarget 3 = 1)) := by
    rw [pianoIter_note, pianoIter_Ttarget]
    unfold pianoNote tableNote
    rw [touchInput_snd, touchInput_Tactive]
    simp only [touchInput_Ttarget]
    by_cases h0 : sensorTripped (st.Tavg 0) (inp.TMR0 0) <;>
    by_cases h1 : sensorTripped (st.Tavg 1) (inp.TMR0 1) <;>
    by_cases h2 : sensorTripped (st.Tavg 2) (inp.TMR0 2) <;>
    by_cases h3 : sensorTripped (st.Tavg 3) (inp.TMR0 3) <;>
    simp [h0, h1, h2, h3]
  refine ⟨hnote, ?_, ?_, ?_⟩
  · intro i
    rw [pianoIter_Ttarget, touchInput_Ttarget]
    split_ifs
    · exact Or.inr rfl
    · exact Or.inl rfl
  · intro hall
    rw [hnote, hall 0, hall 1, hall 2, hall 3]
    decide
  · intro p
    refine ⟨calibrated, ⟨patternCounts p, true, true⟩, fun i => ?_⟩
    rw [pianoIter_Ttarget, touchInput_Ttarget]
    show (if sensorTripped 100 (patternCounts p i) then 1 else 0) = 1 ↔ p i = true
    cases hp : p i
    · have hv : patternCounts p i = 100 := by simp [patternCounts, hp]
      have hnt : ¬ sensorTripped 100 100 := by decide
      simp [hv, hnt]
    · have hv : patternCounts p i = 0 := by simp [patternCounts, hp]
      have ht : sensorTripped 100 0 := by decide
      simp [hv, ht]

/-- All four sensors of `calibrated` read at 0: the resolved note is 6, an
instance of C6. -/
theorem pianoIter_note_table_witness :
    (pianoIter calibrated ⟨fun _ => 0, true, true⟩).note = 6 :=
  (pianoIter_note_table calibrated ⟨fun _ => 0, true, true⟩).2.2.1
    (fun i => by revert i; decide)

/-! ## Mode machine -/

theorem offSwitch_mode (st : State) (S1 : Bool) :
    (offSwitch st S1).mode = (if S1 = false ∧ st.modeSwitch = false then piano else st.mode) ∧
    (offSwitch st S1).modeSwitch =
      (if S1 = false ∧ st.modeSwitch = false then true else st.modeSwitch) := by
  unfold offSwitch
  split_ifs <;> simp

theorem pianoSwitch_mode (st : State) (S1 : Bool) :
    (pianoSwitch st S1).mode =
      (if S1 = false ∧ st.modeSwitch = false then metronome else st.mode) ∧
    (pianoSwitch st S1).modeSwitch =
      (if S1 = false ∧ st.modeSwitch = false then true else st.modeSwitch) := by
  unfold pianoSwitch
  split_ifs <;> simp

theorem metronomeSwitch_mode (st : State) (S1 : Bool) :
    (metronomeSwitch st S1).mode =
      (if S1 = false ∧ st.modeSwitch = false then off else st.mode) ∧
    (metronomeSwitch st S1).modeSwitch =
      (if S1 = false ∧ st.modeSwitch = false then true else st.modeSwitch) := by
  unfold metronomeSwitch
  split_ifs <;> simp

theorem releaseLatch_modeSwitch (st : State) (S1 : Bool) :
    (releaseLatch st S1).modeSwitch = (if S1 = true then false else st.modeSwitch) := by
  unfold releaseLatch
  split_ifs <;> simp

/-- Every tempo in 40..244 reads inside the table. -/
theorem beatLookup_isSome (bpm : Nat) (h : inTable bpm) : ∃ r, beatLookup bpm = some r := by
  obtain ⟨h1, h2⟩ := h
  unfold beatLookup
  dsimp only
  split_ifs with h0
  · exact ⟨_, rfl⟩
  · have hlt : u8 ((u8 ((bpm : Int) - 40) : Nat) / 5) < beatDelay.length := by
      have hlen : beatDelay.length = 41 := rfl
      rw [hlen]
      unfold u8
      omega
    rw [List.get?_eq_get hlt]
    exact ⟨_, rfl⟩

theorem metronomeBeat_isSome (st : State) (h : inTable st.bpm) :
    ∃ st1, metronomeBeat st = some st1 ∧ st1.mode = st.mode ∧
      st1.modeSwitch = st.modeSwitch ∧ st1.bpm = st.bpm := by
  unfold metronomeBeat
  split_ifs
  · obtain ⟨r, hr⟩ := beatLookup_isSome st.bpm h
    rw [hr]
    exact ⟨_, rfl, by simp [makeBeat_keeps]⟩
  · exact ⟨st, rfl, rfl, rfl, rfl⟩

theorem metronomeTouch_inTable (st : State) (active : Nat) (h : inTable st.bpm) :
    inTable (metronomeTouch st active).bpm := by
  unfold inTable at h ⊢
  unfold metronomeTouch
  dsimp only
  split_ifs <;> (try simp only []) <;> (try unfold u8) <;> omega

/-- What one iteration does to `mode` and to the latch, in every mode. -/
theorem mainIter_spec (st : State) (inp : Input) (hv : validMode st.mode)
    (hok : st.mode = metronome → inTable st.bpm) :
    ∃ st', mainIter st inp = some st' ∧
      st'.mode =
        (if inp.S1a = false ∧ st.modeSwitch = false then nextMode st.mode else st.mode) ∧
      st'.modeSwitch =
        (if inp.S1b = true then false
         else if inp.S1a = false ∧ st.modeSwitch = false then true else st.modeSwitch) ∧
      (inTable st.bpm → inTable st'.bpm) := by
  rcases hv with hm | hm | hm
  · refine ⟨offIter st inp, by simp [mainIter, hm], ?_, ?_, ?_⟩
    · simp [offIter, releaseLatch_keeps, offSwitch_mode, offNap_keeps, nextMode, hm]
    · simp [offIter, releaseLatch_modeSwitch, offSwitch_mode, offNap_keeps]
    · simp [offIter, releaseLatch_keeps, offSwitch_keeps, offNap_keeps]
  · refine ⟨pianoIter st inp, by simp [mainIter, hm, off, piano], ?_, ?_, ?_⟩
    · simp [pianoIter, playNote_keeps, releaseLatch_keeps, pianoSwitch_mode, pianoNote_keeps,
        touchInput_keeps, nextMode, hm, off, piano]
    · simp [pianoIter, playNote_keeps, releaseLatch_modeSwitch, pianoSwitch_mode,
        pianoNote_keeps, touchInput_keeps]
    · simp [pianoIter, playNote_keeps, releaseLatch_keeps, pianoSwitch_keeps, pianoNote_keeps,
        touchInput_keeps]
  · obtain ⟨st1, h1, hmode, hlatch, hbpm⟩ := metronomeBeat_isSome st (hok hm)
    have hiter : metronomeIter st inp = some
        (metronomeTouch
          (touchInput (releaseLatch (metronomeSwitch st1 inp.S1a) inp.S1b) inp.TMR0).1
          (touchInput (releaseLatch (metronomeSwitch st1 inp.S1a) inp.S1b) inp.TMR0).2) := by
      unfold metronomeIter
      rw [h1]
      rfl
    refine ⟨outerRestart (metronomeTouch
        (touchInput (releaseLatch (metronomeSwitch st1 inp.S1a) inp.S1b) inp.TMR0).1
        (touchInput (releaseLatch (metronomeSwitch st1 inp.S1a) inp.S1b) inp.TMR0).2),
      by simp [mainIter, hm, off, piano, metronome, hiter], ?_, ?_, ?_⟩
    · simp [outerRestart_keeps, metronomeTouch_keeps, touchInput_keeps, releaseLatch_keeps,
        metronomeSwitch_mode, nextMode, hm, hmode, hlatch, off, piano, metronome]
    · simp [outerRestart_keeps, metronomeTouch_keeps, touchInput_keeps,
        releaseLatch_modeSwitch, metronomeSwitch_mode, hlatch]
    · intro hin
      rw [(outerRestart_keeps _).2.2.2.2.2.2.2.2.2.2.2.2.2.2.1]
      apply metronomeTouch_inTable
      simp [touchInput_keeps, releaseLatch_keeps, metronomeSwitch_keeps, hbpm, hin]

theorem run_append (st : State) (xs ys : List Input) :
    run st (xs ++ ys) = (run st xs).bind fun s => run s ys := by
  induction xs generalizing st with
  | nil => rfl
  | cons x xs ih =>
    simp only [List.cons_append, run]
    cases mainIter st x with
    | none => rfl
    | some s => simpa using ih s

theorem runsTo_cons (st s1 st' : State) (x : Input) (xs : List Input) (n : Nat)
    (h1 : mainIter st x = some s1) (h2 : runsTo s1 xs st' n) :
    runsTo st (x :: xs) st' (if s1.mode = st.mode then n else n + 1) := by
  obtain ⟨hr, ht⟩ := h2
  constructor
  · simp [run, h1, hr]
  · simp [transitions, h1, ht]

theorem runsTo_append (st s1 s2 : State) (xs ys : List Input) (n m : Nat)
    (h1 : runsTo st xs s1 n) (h2 : runsTo s1 ys s2 m) :
    runsTo st (xs ++ ys) s2 (n + m) := by
  induction xs generalizing st n with
  | nil =>
    obtain ⟨hr, ht⟩ := h1
    simp only [run, transitions, Option.some.injEq] at hr ht
    subst hr
    subst ht
    simpa using h2
  | cons x xs ih =>
    obtain ⟨hr, ht⟩ := h1
    simp only [run, transitions] at hr ht
    cases hx : mainIter st x with
    | none => simp [hx] at hr
    | some s =>
      rw [hx] at hr ht
      simp only [Option.some_bind] at hr ht
      cases hn : transitions s xs with
      | none => simp [hn] at ht
      | some k =>
        rw [hn] at ht
        simp only [Option.map_some', Option.some.injEq] at ht
        have hrec := ih s k ⟨hr, hn⟩
        have hc := runsTo_cons st s s2 x (xs ++ ys) (k + m) hx hrec
        rw [List.cons_append]
        convert hc using 1
        split_ifs at ht ⊢ <;> omega

/-- While the button stays pressed and the latch is set, the mode does not
change. -/
theorem runsTo_held (st : State) (ins : List Input) (hv : validMode st.mode)
    (hok : st.mode = metronome → inTable st.bpm) (hl : st.modeSwitch = true)
    (hp : ∀ i ∈ ins, pressed i) :
    ∃ st', runsTo st ins st' 0 ∧ st'.mode = st.mode ∧ st'.modeSwitch = true ∧
      (inTable st.bpm → inTable st'.bpm) := by
  induction ins generalizing st with
  | nil => exact ⟨st, ⟨rfl, rfl⟩, rfl, hl, id⟩
  | cons x xs ih =>
    obtain ⟨hxa, hxb⟩ := hp x (List.mem_cons_self x xs)
    obtain ⟨s1, h1, hmode, hlatch, hbpm⟩ := mainIter_spec st x hv hok
    simp [hxa, hxb, hl] at hmode hlatch
    obtain ⟨st', hrun, hm', hl', hb'⟩ := ih s1 (hmode ▸ hv)
      (fun h => hbpm (hok (hmode ▸ h))) hlatch
      (fun i hi => hp i (List.mem_cons_of_mem x hi))
    refine ⟨st', ?_, hm'.trans hmode, hl', fun h => hb' (hbpm h)⟩
    have hc := runsTo_cons st s1 st' x xs 0 h1 hrun
    rwa [if_pos hmode] at hc

/-- While the button stays released the mode does not change, and the latch
is clear after the first such iteration. -/
theorem runsTo_released (st : State) (ins : List Input) (hv : validMode st.mode)
    (hok : st.mode = metronome → inTable st.bpm) (hp : ∀ i ∈ ins, released i) :
    ∃ st', runsTo st ins st' 0 ∧ st'.mode = st.mode ∧
      (ins ≠ [] ∨ st.modeSwitch = false → st'.modeSwitch = false) ∧
      (inTable st.bpm → inTable st'.bpm) := by
  induction ins generalizing st with
  | nil => exact ⟨st, ⟨rfl, rfl⟩, rfl, fun h => h.resolve_left (fun h => h rfl), id⟩
  | cons x xs ih =>
    obtain ⟨hxa, hxb⟩ := hp x (List.mem_cons_self x xs)
    obtain ⟨s1, h1, hmode, hlatch, hbpm⟩ := mainIter_spec st x hv hok
    simp [hxa, hxb] at hmode hlatch
    obtain ⟨st', hrun, hm', hl', hb'⟩ := ih s1 (hmode ▸ hv)
      (fun h => hbpm (hok (hmode ▸ h)))
      (fun i hi => hp i (List.mem_cons_of_mem x hi))
    refine ⟨st', ?_, hm'.trans hmode, fun _ => hl' (Or.inr hlatch), fun h => hb' (hbpm h)⟩
    have hc := runsTo_cons st s1 st' x xs 0 h1 hrun
    rwa [if_pos hmode] at hc

theorem metronomeBeat_of_some (st st1 : State) (h : metronomeBeat st = some st1) :
    st1.mode = st.mode ∧ st1.modeSwitch = st.modeSwitch := by
  unfold metronomeBeat at h
  split_ifs at h
  · obtain ⟨r, _, hr⟩ := Option.map_eq_some'.1 h
    subst hr
    simp [makeBeat_keeps]
  · simp only [Option.some.injEq] at h
    subst h
    exact ⟨rfl, rfl⟩

/-- Any completed iteration either keeps the mode or, on a pressed first read
with the latch clear in one of the three modes, moves it to its successor. -/
theorem mainIter_mode_of_some (s s' : State) (inp : Input) (h : mainIter s inp = some s') :
    s'.mode =
      (if validMode s.mode ∧ inp.S1a = false ∧ s.modeSwitch = false then nextMode s.mode
       else s.mode) := by
  by_cases h0 : s.mode = off
  · unfold mainIter at h
    rw [if_pos h0, Option.some.injEq] at h
    subst h
    simp [offIter, releaseLatch_keeps, offSwitch_mode, offNap_keeps, nextMode, h0, validMode]
  by_cases h1 : s.mode = piano
  · unfold mainIter at h
    rw [if_neg h0, if_pos h1, Option.some.injEq] at h
    subst h
    simp [pianoIter, playNote_keeps, releaseLatch_keeps, pianoSwitch_mode, pianoNote_keeps,
      touchInput_keeps, nextMode, h1, validMode, off, piano]
  by_cases h2 : s.mode = metronome
  · unfold mainIter at h
    rw [if_neg h0, if_neg h1, if_pos h2] at h
    obtain ⟨s2, hs2, hr2⟩ := Option.map_eq_some'.1 h
    unfold metronomeIter at hs2
    obtain ⟨s1, hs1, hr⟩ := Option.map_eq_some'.1 hs2
    obtain ⟨hm, hl⟩ := metronomeBeat_of_some s s1 hs1
    subst hr
    subst hr2
    simp [outerRestart_keeps, metronomeTouch_keeps, touchInput_keeps, releaseLatch_keeps, metronomeSwitch_mode,
      nextMode, h2, hm, hl, validMode, off, piano, metronome]
  · unfold mainIter at h
    rw [if_neg h0, if_neg h1, if_neg h2, Option.some.injEq] at h
    subst h
    simp [validMode, h0, h1, h2]

theorem nextMode_ne (m : Nat) (hv : validMode m) : nextMode m ≠ m := by
  rcases hv with h | h | h <;> subst h <;> decide

theorem nextMode_valid (m : Nat) (hv : validMode m) : validMode (nextMode m) := by
  rcases hv with h | h | h <;> subst h <;> decide

theorem nextMode_thrice (m : Nat) (hv : validMode m) :
    nextMode (nextMode (nextMode m)) = m := by
  rcases hv with h | h | h <;> subst h <;> decide

/-- One press-release cycle from a state with the latch clear: exactly one
mode change, to the successor, and the latch is clear again. -/
theorem runsTo_cycle (st : State) (P R : List Input) (hv : validMode st.mode)
    (hl : st.modeSwitch = false) (hb : inTable st.bpm) (hc : isCycle P R) :
    ∃ st', runsTo st (P ++ R) st' 1 ∧ st'.mode = nextMode st.mode ∧
      st'.modeSwitch = false ∧ inTable st'.bpm := by
  obtain ⟨hP, hPp, hR, hRr⟩ := hc
  cases P with
  | nil => simp at hP
  | cons x xs =>
    obtain ⟨hxa, hxb⟩ := hPp x (List.mem_cons_self x xs)
    obtain ⟨s1, h1, hmode, hlatch, hbpm⟩ := mainIter_spec st x hv (fun _ => hb)
    simp [hxa, hxb, hl] at hmode hlatch
    have hv1 : validMode s1.mode := hmode ▸ nextMode_valid _ hv
    obtain ⟨s2, hrun2, hm2, hl2, hb2⟩ := runsTo_held s1 xs hv1 (fun _ => hbpm hb) hlatch
      (fun i hi => hPp i (List.mem_cons_of_mem x hi))
    have hv2 : validMode s2.mode := hm2 ▸ hv1
    obtain ⟨s3, hrun3, hm3, hl3, hb3⟩ := runsTo_released s2 R hv2 (fun _ => hb2 (hbpm hb)) hRr
    have hRne : R ≠ [] := by
      intro h
      simp [h] at hR
    refine ⟨s3, ?_, by rw [hm3, hm2, hmode], hl3 (Or.inl hRne), hb3 (hb2 (hbpm hb))⟩
    have hc1 := runsTo_cons st s1 s2 x xs 0 h1 hrun2
    rw [if_neg (by rw [hmode]; exact nextMode_ne _ hv)] at hc1
    exact runsTo_append st s2 s3 (x :: xs) R (0 + 1) 0 hc1 hrun3

/-- C7: from mode Off with the latch clear, an iteration that reads the button
pressed switches to Piano; however long the button then stays pressed the mode
stays Piano (one transition in all); the following released readings keep the
mode, clear the latch, and the whole press-release run has exactly one
transition. -/
theorem press_hold_release (st : State) (press : Input) (holds releases : List Input)
    (hm : st.mode = off) (hl : st.modeSwitch = false)
    (hp : pressed press) (hh : ∀ i ∈ holds, pressed i) (hr : ∀ i ∈ releases, released i) :
    (mainIter st press).map State.mode = some piano ∧
    (run st (press :: holds)).map State.mode = some piano ∧
    (run st (press :: holds)).map State.modeSwitch = some true ∧
    transitions st (press :: holds) = some 1 ∧
    (run st (press :: holds ++ releases)).map State.mode = some piano ∧
    transitions st (press :: holds ++ releases) = some 1 ∧
    (releases ≠ [] →
      (run st (press :: holds ++ releases)).map State.modeSwitch = some false) := by
  have hv : validMode st.mode := Or.inl hm
  have hok : st.mode = metronome → inTable st.bpm := by
    intro h
    rw [hm] at h
    exact absurd h (by decide)
  obtain ⟨s1, h1, hmode, hlatch, -⟩ := mainIter_spec st press hv hok
  simp [hp.1, hp.2, hl, hm, nextMode] at hmode hlatch
  have hne : ¬ s1.mode = st.mode := by
    rw [hmode, hm]
    decide
  have hv1 : validMode s1.mode := Or.inr (Or.inl hmode)
  have hok1 : s1.mode = metronome → inTable s1.bpm := by
    intro h
    rw [hmode] at h
    exact absurd h (by decide)
  obtain ⟨s2, hrun2, hm2, hl2, -⟩ := runsTo_held s1 holds hv1 hok1 hlatch hh
  have hv2 : validMode s2.mode := hm2 ▸ hv1
  have hok2 : s2.mode = metronome → inTable s2.bpm := by
    intro h
    rw [hm2, hmode] at h
    exact absurd h (by decide)
  obtain ⟨s3, hrun3, hm3, hl3, -⟩ := runsTo_released s2 releases hv2 hok2 hr
  have hc1 := runsTo_cons st s1 s2 press holds 0 h1 hrun2
  rw [if_neg hne] at hc1
  have hc2 := runsTo_append st s2 s3 (press :: holds) releases (0 + 1) 0 hc1 hrun3
  rw [List.cons_append] at hc2
  refine ⟨by simp [h1, hmode], by simp [hc1.1, hm2, hmode], by simp [hc1.1, hl2], hc1.2,
    by simp [hc2.1, hm3, hm2, hmode], hc2.2, fun hne' => by simp [hc2.1, hl3 (Or.inl hne')]⟩

/-- From `asleep`, one pressed reading, two more while held and two released
readings end in Piano after a single transition: an instance of C7. -/
theorem press_hold_release_witness :
    (asleep.mode = off ∧ asleep.modeSwitch = false ∧ pressed pressIn) ∧
    transitions asleep (pressIn :: [pressIn, pressIn] ++ [releaseIn, releaseIn]) = some 1 :=
  ⟨by decide,
   (press_hold_release asleep pressIn [pressIn, pressIn] [releaseIn, releaseIn]
      (by decide) (by decide) (by decide) (by decide) (by decide)).2.2.2.2.2.1⟩

/-- C8: the initial mode is Piano; an iteration that changes the mode starts
in one of the three modes and ends in its successor in the rotation Off,
Piano, Metronome, Off; one press-release cycle moves the mode to its
successor and three such cycles bring it back where it was, after three
transitions. -/
theorem mode_rotation (st : State) (P1 R1 P2 R2 P3 R3 : List Input)
    (hv : validMode st.mode) (hl : st.modeSwitch = false) (hb : inTable st.bpm)
    (h1 : isCycle P1 R1) (h2 : isCycle P2 R2) (h3 : isCycle P3 R3) :
    initialState.mode = piano ∧
    (∀ (s s' : State) (inp : Input), mainIter s inp = some s' → s'.mode ≠ s.mode →
      validMode s.mode ∧ s'.mode = nextMode s.mode) ∧
    (nextMode off = piano ∧ nextMode piano = metronome ∧ nextMode metronome = off) ∧
    (run st (P1 ++ R1)).map State.mode = some (nextMode st.mode) ∧
    (run st ((P1 ++ R1) ++ (P2 ++ R2) ++ (P3 ++ R3))).map State.mode = some st.mode ∧
    transitions st ((P1 ++ R1) ++ (P2 ++ R2) ++ (P3 ++ R3)) = some 3 := by
  obtain ⟨s1, hr1, hm1, hl1, hb1⟩ := runsTo_cycle st P1 R1 hv hl hb h1
  have hv1 : validMode s1.mode := hm1 ▸ nextMode_valid _ hv
  obtain ⟨s2, hr2, hm2, hl2, hb2⟩ := runsTo_cycle s1 P2 R2 hv1 hl1 hb1 h2
  have hv2 : validMode s2.mode := hm2 ▸ nextMode_valid _ hv1
  obtain ⟨s3, hr3, hm3, -, -⟩ := runsTo_cycle s2 P3 R3 hv2 hl2 hb2 h3
  have h12 := runsTo_append st s1 s2 _ _ 1 1 hr1 hr2
  have h123 := runsTo_append st s2 s3 _ _ (1 + 1) 1 h12 hr3
  refine ⟨rfl, ?_, ⟨rfl, rfl, rfl⟩, by simp [hr1.1, hm1], ?_, h123.2⟩
  · intro s s' inp hs hne
    have hmode := mainIter_mode_of_some s s' inp hs
    by_cases hc : validMode s.mode ∧ inp.S1a = false ∧ s.modeSwitch = false
    · rw [if_pos hc] at hmode
      exact ⟨hc.1, hmode⟩
    · rw [if_neg hc] at hmode
      exact absurd hmode hne
  · rw [h123.1]
    simp only [Option.map_some', Option.some.injEq]
    rw [hm3, hm2, hm1]
    exact nextMode_thrice _ hv

/-- Three press-release cycles from the initial state return to Piano: an
instance of C8. -/
theorem mode_rotation_witness :
    (validMode initialState.mode ∧ initialState.modeSwitch = false ∧
      inTable initialState.bpm ∧ isCycle [pressIn] [releaseIn]) ∧
    (run initialState (([pressIn] ++ [releaseIn]) ++ ([pressIn] ++ [releaseIn]) ++
      ([pressIn] ++ [releaseIn]))).map State.mode = some piano :=
  ⟨by decide,
   (mode_rotation initialState [pressIn] [releaseIn] [pressIn] [releaseIn] [pressIn]
      [releaseIn] (by decide) (by decide) (by decide) (by decide) (by decide)
      (by decide)).2.2.2.2.1⟩

/-! ## Metronome tempo lookup -/

/-- For a tempo in 40..244 the lookup reads the entry at `(bpm - 40) / 5` and
leaves that quotient in `bpmIndex`. -/
theorem beatLookup_eq (bpm : Nat) (h : inTable bpm) :
    beatLookup bpm =
      (beatDelay.get? ((bpm - 40) / 5)).map fun d => ((bpm - 40) / 5, d) := by
  obtain ⟨h1, h2⟩ := h
  have ha : u8 ((bpm : Int) - 40) = bpm - 40 := by
    unfold u8
    omega
  unfold beatLookup
  dsimp only
  rw [ha]
  split_ifs with h0
  · rw [h0]
  · have hb : u8 (((bpm - 40 : Nat) : Int) / 5) = (bpm - 40) / 5 := by
      unfold u8
      omega
    rw [hb]

/-- C9 as stated fails: at 60 bpm the lookup does not give index 4 with entry
923. -/
theorem beatLookup_60_not_923 : beatLookup 60 ≠ some (4, 923) := by
  decide

/-- C9, amended: at 60 bpm the lookup computes index 4 and the table entry at
that index is 1000; 923 is the entry at index 5, read at 65 bpm. -/
theorem beatLookup_60 :
    beatLookup 60 = some (4, 1000) ∧ beatDelay.get? 4 = some 1000 ∧
    beatLookup 65 = some (5, 923) := by
  decide

/-- C10: for every tempo 40, 45, ..., 240 the lookup yields the index
`(bpm - 40) / 5`, which is at most 40 and inside the 41-entry table, together
with the entry at that index, and `metronomeBeat` stores that index in
`bpmIndex`; 40 bpm gives index 0 with entry 1500 and 240 bpm gives index 40
with entry 250. -/
theorem beatLookup_index (bpm : Nat) (hlo : 40 ≤ bpm) (hhi : bpm ≤ 240) (h5 : bpm % 5 = 0) :
    (beatLookup bpm).map Prod.fst = some ((bpm - 40) / 5) ∧
    (beatLookup bpm).map Prod.snd = beatDelay.get? ((bpm - 40) / 5) ∧
    5 * ((bpm - 40) / 5) = bpm - 40 ∧
    (bpm - 40) / 5 ≤ 40 ∧
    (bpm - 40) / 5 < beatDelay.length ∧
    (∀ st : State, st.beatOn = true → st.bpm = bpm →
      (metronomeBeat st).map State.bpmIndex = some ((bpm - 40) / 5)) ∧
    beatDelay.length = 41 ∧
    beatLookup 40 = some (0, 1500) ∧ beatLookup 240 = some (40, 250) := by
  have hin : inTable bpm := ⟨hlo, by omega⟩
  have hlen : beatDelay.length = 41 := rfl
  have hlt : (bpm - 40) / 5 < beatDelay.length := by
    rw [hlen]
    omega
  have heq := beatLookup_eq bpm hin
  rw [List.get?_eq_get hlt] at heq
  refine ⟨by simp [heq], ?_, by omega, by omega, hlt, ?_, hlen, by decide, by decide⟩
  · rw [heq, List.get?_eq_get hlt]
    rfl
  · intro st hon hbpm
    unfold metronomeBeat
    rw [if_pos hon, hbpm, heq]
    simp [makeBeat_keeps]

/-- At 120 bpm the lookup gives index 16: an instance of C10. -/
theorem beatLookup_index_witness :
    (40 ≤ 120 ∧ 120 ≤ 240 ∧ 120 % 5 = 0) ∧
    (beatLookup 120).map Prod.fst = some ((120 - 40) / 5) :=
  ⟨by decide, (beatLookup_index 120 (by decide) (by decide) (by decide)).1⟩

/-! ## Metronome settings -/

theorem metronomeIter_eq (st : State) (inp : Input) :
    metronomeIter st inp = (metronomeBeat st).map fun s =>
      metronomePoll (releaseLatch (metronomeSwitch s inp.S1a) inp.S1b) inp.TMR0 := rfl

/-- The three things a poll can do to `bpm`, as stored. -/
theorem metronomeTouch_bpm_cases (s : State) (active : Nat) :
    (metronomeTouch s active).bpm = s.bpm ∨
    (s.bpm < 240 ∧ (metronomeTouch s active).bpm = (s.bpm + 5) % 256) ∨
    (60 < s.bpm ∧ (metronomeTouch s active).bpm = u8 ((s.bpm : Int) - 5)) := by
  unfold metronomeTouch
  dsimp only
  split_ifs with h1 h2 h3 h4 h5 h6 h7
  all_goals first
    | exact Or.inl rfl
    | exact Or.inr (Or.inl ⟨by assumption, rfl⟩)
    | exact Or.inr (Or.inr ⟨by assumption, rfl⟩)

/-- The tempo actions keep the tempo a multiple of 5 in 60..240 and move it by
exactly one step of 5, or not at all. -/
theorem metronomeTouch_tempo (s : State) (active : Nat) (h : tempoInv s.bpm) :
    tempoInv (metronomeTouch s active).bpm ∧
    ((metronomeTouch s active).bpm = s.bpm ∨
     (s.bpm < 240 ∧ (metronomeTouch s active).bpm = s.bpm + 5) ∨
     (60 < s.bpm ∧ (metronomeTouch s active).bpm + 5 = s.bpm)) := by
  obtain ⟨hlo, hhi, h5⟩ := h
  have hup : (s.bpm + 5) % 256 = s.bpm + 5 := Nat.mod_eq_of_lt (by omega)
  have hdown : 60 < s.bpm → u8 ((s.bpm : Int) - 5) + 5 = s.bpm := by
    intro hgt
    unfold u8
    omega
  unfold tempoInv
  rcases metronomeTouch_bpm_cases s active with hc | ⟨hlt, hc⟩ | ⟨hgt, hc⟩
  · rw [hc]
    exact ⟨⟨hlo, hhi, h5⟩, Or.inl rfl⟩
  · rw [hc, hup]
    exact ⟨⟨by omega, by omega, by omega⟩, Or.inr (Or.inl ⟨hlt, rfl⟩)⟩
  · rw [hc]
    have hd := hdown hgt
    exact ⟨⟨by omega, by omega, by omega⟩, Or.inr (Or.inr ⟨hgt, hd⟩)⟩

theorem metronomePoll_tempo (s : State) (TMR0 : Fin 4 → Nat) (h : tempoInv s.bpm) :
    tempoInv (metronomePoll s TMR0).bpm ∧
    ((metronomePoll s TMR0).bpm = s.bpm ∨
     (s.bpm < 240 ∧ (metronomePoll s TMR0).bpm = s.bpm + 5) ∨
     (60 < s.bpm ∧ (metronomePoll s TMR0).bpm + 5 = s.bpm)) := by
  have hb : (touchInput s TMR0).1.bpm = s.bpm := by simp [touchInput_keeps]
  have := metronomeTouch_tempo (touchInput s TMR0).1 (touchInput s TMR0).2 (hb ▸ h)
  rw [hb] at this
  exact this

theorem pollRun_tempo (s : State) (polls : List (Fin 4 → Nat)) (h : tempoInv s.bpm) :
    tempoInv (pollRun s polls).bpm := by
  induction polls generalizing s with
  | nil => exact h
  | cons T Ts ih => exact ih (metronomePoll s T) (metronomePoll_tempo s T h).1

theorem tempoInv_inTable (bpm : Nat) (h : tempoInv bpm) : inTable bpm := by
  unfold tempoInv at h
  unfold inTable
  omega

/-- Every iteration of `main`, in any mode, completes and keeps the tempo a
multiple of 5 in 60..240. -/
theorem mainIter_tempo (st : State) (inp : Input) (h : tempoInv st.bpm) :
    ∃ st', mainIter st inp = some st' ∧ tempoInv st'.bpm := by
  unfold mainIter
  split_ifs with h0 h1 h2
  · exact ⟨_, rfl, by simpa [offIter, releaseLatch_keeps, offSwitch_keeps] using h⟩
  · exact ⟨_, rfl, by
      simpa [pianoIter, playNote_keeps, releaseLatch_keeps, pianoSwitch_keeps, pianoNote_keeps,
        touchInput_keeps] using h⟩
  · obtain ⟨st1, h1', -, -, hbpm⟩ := metronomeBeat_isSome st (tempoInv_inTable _ h)
    rw [metronomeIter_eq, h1']
    refine ⟨_, rfl, ?_⟩
    have hb : ∀ x : State, (outerRestart x).bpm = x.bpm := fun x => by
      simp [outerRestart_keeps]
    rw [hb]
    refine (metronomePoll_tempo _ _ ?_).1
    simpa [releaseLatch_keeps, metronomeSwitch_keeps, hbpm] using h
  · exact ⟨_, rfl, h⟩

theorem run_tempo (st : State) (ins : List Input) (h : tempoInv st.bpm) :
    ∃ st', run st ins = some st' ∧ tempoInv st'.bpm := by
  induction ins generalizing st with
  | nil => exact ⟨st, rfl, h⟩
  | cons x xs ih =>
    obtain ⟨s1, h1, hinv⟩ := mainIter_tempo st x h
    obtain ⟨s2, h2, hinv2⟩ := ih s1 hinv
    exact ⟨s2, by simp [run, h1, h2], hinv2⟩

/-- C11: from a state with `bpm = 60`, after any sequence of metronome poll
cycles, and after any run of the main loop in any modes, `bpm` is a multiple
of 5 with `60 ≤ bpm ≤ 240`; each poll cycle moves such a tempo by exactly 5 up
(only below 240), exactly 5 down (only above 60) or not at all, so the 8-bit
variable never wraps. -/
theorem bpm_stays_in_range (st : State) (h60 : st.bpm = 60) :
    (∀ polls : List (Fin 4 → Nat),
      60 ≤ (pollRun st polls).bpm ∧ (pollRun st polls).bpm ≤ 240 ∧
      (pollRun st polls).bpm % 5 = 0) ∧
    (∀ ins : List Input, ∃ st', run st ins = some st' ∧
      60 ≤ st'.bpm ∧ st'.bpm ≤ 240 ∧ st'.bpm % 5 = 0) ∧
    (∀ (polls : List (Fin 4 → Nat)) (TMR0 : Fin 4 → Nat),
      (metronomePoll (pollRun st polls) TMR0).bpm = (pollRun st polls).bpm ∨
      ((pollRun st polls).bpm < 240 ∧
        (metronomePoll (pollRun st polls) TMR0).bpm = (pollRun st polls).bpm + 5) ∨
      (60 < (pollRun st polls).bpm ∧
        (metronomePoll (pollRun st polls) TMR0).bpm + 5 = (pollRun st polls).bpm)) := by
  have h0 : tempoInv st.bpm := by
    rw [h60]
    decide
  refine ⟨fun polls => pollRun_tempo st polls h0, fun ins => run_tempo st ins h0, ?_⟩
  intro polls TMR0
  exact (metronomePoll_tempo _ TMR0 (pollRun_tempo st polls h0)).2

/-- Three polls with sensor 1 held, from the calibrated initial state: the
tempo stays in range, an instance of C11. -/
theorem bpm_stays_in_range_witness :
    calibrated.bpm = 60 ∧
    60 ≤ (pollRun calibrated [touch1, touch1, touch1]).bpm ∧
    (pollRun calibrated [touch1, touch1, touch1]).bpm ≤ 240 ∧
    (pollRun calibrated [touch1, touch1, touch1]).bpm % 5 = 0 :=
  ⟨by decide, (bpm_stays_in_range calibrated (by decide)).1 [touch1, touch1, touch1]⟩

theorem touchInput_active_pos (st : State) (TMR0 : Fin 4 → Nat) (i : Fin 4)
    (h : (touchInput st TMR0).1.Ttarget i = 1) : (touchInput st TMR0).2 > 0 := by
  have ht : sensorTripped (st.Tavg i) (TMR0 i) := by
    by_contra hn
    rw [touchInput_Ttarget, if_neg hn] at h
    exact absurd h (by decide)
  rw [touchInput_snd, touchInput_Tactive]
  fin_cases i <;> simp only [Fin.zero_eta, Fin.mk_one, Fin.reduceFinMk] at ht <;>
    rw [if_pos ht] <;> omega

/-- The beats-per-measure action of `metronomeTouch`. -/
theorem metronomeTouch_adjust (s : State) (active : Nat) (ha : active > 0)
    (h0 : s.Ttarget 0 = 1) (hl : s.settingChange = false) :
    (metronomeTouch s active).beats =
      (if (s.beats + 1) % 256 ≥ 9 then 1 else (s.beats + 1) % 256) ∧
    (metronomeTouch s active).beat = (if (s.beats + 1) % 256 ≥ 9 then 0 else s.beat) ∧
    (metronomeTouch s active).settingChange = true ∧
    (metronomeTouch s active).bpm = s.bpm ∧
    (metronomeTouch s active).beatOn = s.beatOn := by
  unfold metronomeTouch
  rw [if_pos ha, if_pos ⟨h0, hl⟩]
  dsimp only
  split_ifs <;> simp

/-- C12: a poll in which sensor 0 is tripped while the latch is clear (the
AdjustBeatsPerMeasure action) sets `beats` to 1 and `beat` to 0 when `beats`
was 8, and adds 1 to `beats` leaving `beat` unchanged when `beats` was in
1..7; it sets the latch and leaves the tempo and the running flag alone. -/
theorem adjust_beats_per_measure (st : State) (TMR0 : Fin 4 → Nat)
    (h0 : (touchInput st TMR0).1.Ttarget 0 = 1) (hl : st.settingChange = false) :
    (st.beats = 8 →
      (metronomePoll st TMR0).beats = 1 ∧ (metronomePoll st TMR0).beat = 0) ∧
    (1 ≤ st.beats → st.beats ≤ 7 →
      (metronomePoll st TMR0).beats = st.beats + 1 ∧
      (metronomePoll st TMR0).beat = st.beat) ∧
    (metronomePoll st TMR0).settingChange = true ∧
    (metronomePoll st TMR0).bpm = st.bpm ∧
    (metronomePoll st TMR0).beatOn = st.beatOn := by
  have hk := touchInput_keeps st TMR0
  have hl' : (touchInput st TMR0).1.settingChange = false := by
    simp [touchInput_keeps, hl]
  obtain ⟨hbeats, hbeat, hlatch, hbpm, hon⟩ :=
    metronomeTouch_adjust (touchInput st TMR0).1 (touchInput st TMR0).2
      (touchInput_active_pos st TMR0 0 h0) h0 hl'
  have e1 : (touchInput st TMR0).1.beats = st.beats := by simp [touchInput_keeps]
  have e2 : (touchInput st TMR0).1.beat = st.beat := by simp [touchInput_keeps]
  have e3 : (touchInput st TMR0).1.bpm = st.bpm := by simp [touchInput_keeps]
  have e4 : (touchInput st TMR0).1.beatOn = st.beatOn := by simp [touchInput_keeps]
  rw [e1] at hbeats hbeat
  rw [e2] at hbeat
  unfold metronomePoll
  dsimp only
  refine ⟨?_, ?_, hlatch, hbpm.trans e3, hon.trans e4⟩
  · intro h8
    rw [hbeats, hbeat, h8]
    exact ⟨rfl, rfl⟩
  · intro h1 h7
    have hm : (st.beats + 1) % 256 = st.beats + 1 := Nat.mod_eq_of_lt (by omega)
    rw [hbeats, hbeat, hm, if_neg (by omega), if_neg (by omega)]
    exact ⟨rfl, rfl⟩

/-- With eight beats per measure at beat 5, touching sensor 0 wraps `beats` to
1 and resets `beat`: an instance of C12. -/
theorem adjust_beats_per_measure_witness :
    ((touchInput eightBeats touch0).1.Ttarget 0 = 1 ∧ eightBeats.settingChange = false ∧
      eightBeats.beats = 8) ∧
    (metronomePoll eightBeats touch0).beats = 1 ∧ (metronomePoll eightBeats touch0).beat = 0 :=
  ⟨by decide,
   (adjust_beats_per_measure eightBeats touch0 (by decide) (by decide)).1 (by decide)⟩

theorem makeBeat_beat (st : State) (counts : Nat) :
    (makeBeat st counts).beat =
      (if (st.beat + 1) % 256 = st.beats then 0 else (st.beat + 1) % 256) := by
  unfold makeBeat
  dsimp only
  split_ifs <;> simp_all

theorem makeBeat_beatInv (st : State) (counts : Nat) (h : beatInv st) :
    beatInv (makeBeat st counts) := by
  have hb : (makeBeat st counts).beats = st.beats := by simp [makeBeat_keeps]
  have hm : (st.beat + 1) % 256 = st.beat + 1 := Nat.mod_eq_of_lt (by unfold beatInv at h; omega)
  unfold beatInv at h ⊢
  rw [hb, makeBeat_beat, hm]
  split_ifs <;> omega

theorem metronomeTouch_beats_cases (s : State) (active : Nat) :
    ((metronomeTouch s active).beats = s.beats ∧ (metronomeTouch s active).beat = s.beat) ∨
    ((metronomeTouch s active).beats =
        (if (s.beats + 1) % 256 ≥ 9 then 1 else (s.beats + 1) % 256) ∧
      (metronomeTouch s active).beat = (if (s.beats + 1) % 256 ≥ 9 then 0 else s.beat)) := by
  by_cases h : active > 0 ∧ s.Ttarget 0 = 1 ∧ s.settingChange = false
  · obtain ⟨hb, hbt, -⟩ := metronomeTouch_adjust s active h.1 h.2.1 h.2.2
    exact Or.inr ⟨hb, hbt⟩
  · left
    unfold metronomeTouch
    dsimp only
    split_ifs with h1 h2 <;> first
      | exact ⟨rfl, rfl⟩
      | exact absurd ⟨h1, h2⟩ h

theorem metronomeTouch_beatInv (s : State) (active : Nat) (h : beatInv s) :
    beatInv (metronomeTouch s active) := by
  unfold beatInv at h ⊢
  rcases metronomeTouch_beats_cases s active with ⟨hb, hbt⟩ | ⟨hb, hbt⟩
  · rw [hb, hbt]
    exact h
  · have hm : (s.beats + 1) % 256 = s.beats + 1 := Nat.mod_eq_of_lt (by omega)
    rw [hb, hbt, hm]
    split_ifs <;> omega

theorem metronomePoll_beatInv (s : State) (TMR0 : Fin 4 → Nat) (h : beatInv s) :
    beatInv (metronomePoll s TMR0) := by
  apply metronomeTouch_beatInv
  unfold beatInv at h ⊢
  simpa [touchInput_keeps] using h

theorem stepRun_beatInv (s : State) (steps : List MetStep) (h : beatInv s) :
    beatInv (stepRun s steps) := by
  induction steps generalizing s with
  | nil => exact h
  | cons x xs ih =>
    apply ih
    cases x with
    | beat counts => exact makeBeat_beatInv s counts h
    | poll TMR0 => exact metronomePoll_beatInv s TMR0 h

theorem mainIter_beatInv (st st' : State) (inp : Input) (hs : mainIter st inp = some st')
    (h : beatInv st) : beatInv st' := by
  unfold mainIter at hs
  split_ifs at hs with h0 h1 h2
  · rw [Option.some.injEq] at hs
    subst hs
    unfold beatInv at h ⊢
    simpa [offIter, releaseLatch_keeps, offSwitch_keeps] using h
  · rw [Option.some.injEq] at hs
    subst hs
    unfold beatInv at h ⊢
    simpa [pianoIter, playNote_keeps, releaseLatch_keeps, pianoSwitch_keeps, pianoNote_keeps,
      touchInput_keeps] using h
  · obtain ⟨s2, hs2, hr2⟩ := Option.map_eq_some'.1 hs
    rw [metronomeIter_eq] at hs2
    obtain ⟨s1, hs1, hr⟩ := Option.map_eq_some'.1 hs2
    subst hr
    subst hr2
    have hk : ∀ x : State, beatInv x → beatInv (outerRestart x) := fun x hx => by
      unfold beatInv at hx ⊢
      simpa [outerRestart_keeps] using hx
    apply hk
    apply metronomePoll_beatInv
    have h1' : beatInv s1 := by
      unfold metronomeBeat at hs1
      split_ifs at hs1
      · obtain ⟨r, -, hr⟩ := Option.map_eq_some'.1 hs1
        subst hr
        exact makeBeat_beatInv _ _ h
      · rw [Option.some.injEq] at hs1
        subst hs1
        exact h
    unfold beatInv at h1' ⊢
    simpa [releaseLatch_keeps, metronomeSwitch_keeps] using h1'
  · rw [Option.some.injEq] at hs
    subst hs
    exact h

theorem run_beatInv (st st' : State) (ins : List Input) (hs : run st ins = some st')
    (h : beatInv st) : beatInv st' := by
  induction ins generalizing st with
  | nil =>
    simp only [run, Option.some.injEq] at hs
    subst hs
    exact h
  | cons x xs ih =>
    simp only [run] at hs
    cases hx : mainIter st x with
    | none => simp [hx] at hs
    | some s1 =>
      rw [hx] at hs
      exact ih s1 hs (mainIter_beatInv st s1 x hx h)

/-- C13: from a state with `beat = 0` and `beats = 1`, after any interleaving
of `makeBeat` calls and metronome touch polls, and after any completed run of
the main loop, `1 ≤ beats ≤ 8` and `beat < beats`. -/
theorem beat_index_in_measure (st : State) (hbeat : st.beat = 0) (hbeats : st.beats = 1) :
    (∀ steps : List MetStep,
      1 ≤ (stepRun st steps).beats ∧ (stepRun st steps).beats ≤ 8 ∧
      (stepRun st steps).beat < (stepRun st steps).beats) ∧
    (∀ (ins : List Input) (st' : State), run st ins = some st' →
      1 ≤ st'.beats ∧ st'.beats ≤ 8 ∧ st'.beat < st'.beats) := by
  have h0 : beatInv st := by
    unfold beatInv
    omega
  exact ⟨fun steps => stepRun_beatInv st steps h0,
    fun ins st' hs => run_beatInv st st' ins hs h0⟩

/-- Two measure changes and three beats from the calibrated initial state keep
the beat index inside the measure: an instance of C13. -/
theorem beat_index_in_measure_witness :
    (calibrated.beat = 0 ∧ calibrated.beats = 1) ∧
    (stepRun calibrated [MetStep.poll touch0, MetStep.beat 980, MetStep.poll rest1,
      MetStep.poll touch0, MetStep.beat 980, MetStep.beat 980]).beat <
    (stepRun calibrated [MetStep.poll touch0, MetStep.beat 980, MetStep.poll rest1,
      MetStep.poll touch0, MetStep.beat 980, MetStep.beat 980]).beats :=
  ⟨by decide,
   ((beat_index_in_measure calibrated (by decide) (by decide)).1 _).2.2⟩

/-- The tempo-increase branch of `metronomeTouch`: taken when sensor 1 is
tripped and the first branch is not. -/
theorem metronomeTouch_increase (s : State) (active : Nat) (ha : active > 0)
    (h1 : s.Ttarget 1 = 1) (hfree : ¬ (s.Ttarget 0 = 1 ∧ s.settingChange = false)) :
    (metronomeTouch s active).bpm = (if s.bpm < 240 then (s.bpm + 5) % 256 else s.bpm) ∧
    (metronomeTouch s active).beats = s.beats ∧
    (metronomeTouch s active).beat = s.beat ∧
    (metronomeTouch s active).beatOn = s.beatOn ∧
    (metronomeTouch s active).settingChange = s.settingChange := by
  unfold metronomeTouch
  rw [if_pos ha, if_neg hfree, if_pos h1]
  split_ifs <;> simp

/-- C14 as stated fails: with sensors 0 and 1 both tripped and the latch clear,
the poll changes `beats` and leaves `bpm` at 60 although `bpm < 240`. -/
theorem increase_tempo_preempted :
    (touchInput calibrated touch01).1.Ttarget 1 = 1 ∧
    calibrated.settingChange = false ∧
    calibrated.bpm < 240 ∧
    (metronomePoll calibrated touch01).bpm ≠ calibrated.bpm + 5 ∧
    (metronomePoll calibrated touch01).bpm = calibrated.bpm ∧
    (metronomePoll calibrated touch01).beats = calibrated.beats + 1 := by
  decide

/-- C14, amended: in a poll with sensor 1 tripped, if sensor 0 is not tripped
(whatever the latch) or the latch is already set, the action is IncreaseTempo:
`bpm` grows by 5 when below 240 and is unchanged otherwise, and the measure,
the running flag and the latch are untouched; if sensor 0 is tripped too and
the latch is clear, the beats-per-measure action runs instead and `bpm` is
unchanged. -/
theorem increase_tempo (st : State) (TMR0 : Fin 4 → Nat)
    (h1 : (touchInput st TMR0).1.Ttarget 1 = 1) :
    ((touchInput st TMR0).1.Ttarget 0 ≠ 1 ∨ st.settingChange = true →
      (st.bpm < 240 → (metronomePoll st TMR0).bpm = st.bpm + 5) ∧
      (¬ st.bpm < 240 → (metronomePoll st TMR0).bpm = st.bpm) ∧
      (metronomePoll st TMR0).beats = st.beats ∧
      (metronomePoll st TMR0).beat = st.beat ∧
      (metronomePoll st TMR0).beatOn = st.beatOn ∧
      (metronomePoll st TMR0).settingChange = st.settingChange) ∧
    ((touchInput st TMR0).1.Ttarget 0 = 1 ∧ st.settingChange = false →
      (metronomePoll st TMR0).bpm = st.bpm ∧
      (metronomePoll st TMR0).settingChange = true) := by
  have ha := touchInput_active_pos st TMR0 1 h1
  have e0 : (touchInput st TMR0).1.settingChange = st.settingChange := by
    simp [touchInput_keeps]
  have e1 : (touchInput st TMR0).1.beats = st.beats := by simp [touchInput_keeps]
  have e2 : (touchInput st TMR0).1.beat = st.beat := by simp [touchInput_keeps]
  have e3 : (touchInput st TMR0).1.bpm = st.bpm := by simp [touchInput_keeps]
  have e4 : (touchInput st TMR0).1.beatOn = st.beatOn := by simp [touchInput_keeps]
  unfold metronomePoll
  dsimp only
  constructor
  · intro hfree
    have hfree' : ¬ ((touchInput st TMR0).1.Ttarget 0 = 1 ∧
        (touchInput st TMR0).1.settingChange = false) := by
      rw [e0]
      rintro ⟨h0, hl⟩
      rcases hfree with h | h
      · exact h h0
      · rw [h] at hl
        exact absurd hl (by decide)
    obtain ⟨hbpm, hbeats, hbeat, hon, hlatch⟩ :=
      metronomeTouch_increase _ _ ha h1 hfree'
    rw [e3] at hbpm
    refine ⟨?_, ?_, hbeats.trans e1, hbeat.trans e2, hon.trans e4, hlatch.trans e0⟩
    · intro hlt
      rw [hbpm, if_pos hlt]
      exact Nat.mod_eq_of_lt (by omega)
    · intro hge
      rw [hbpm, if_neg hge]
  · rintro ⟨h0, hl⟩
    obtain ⟨-, -, hlatch, hbpm, -⟩ :=
      metronomeTouch_adjust _ _ ha h0 (e0.trans hl)
    exact ⟨hbpm.trans e3, hlatch⟩

/-- Sensor 1 alone touched at 60 bpm: the tempo becomes 65, an instance of the
amended C14. -/
theorem increase_tempo_witness :
    (touchInput calibrated touch1).1.Ttarget 1 = 1 ∧
    (metronomePoll calibrated touch1).bpm = calibrated.bpm + 5 :=
  ⟨by decide,
   ((increase_tempo calibrated touch1 (by decide)).1 (Or.inl (by decide))).1 (by decide)⟩

/-- The latch and the edge-type actions within `metronomeTouch`. -/
theorem metronomeTouch_latch (s : State) (active : Nat) :
    (edgeEffect s (metronomeTouch s active) = true ↔
      s.settingChange = false ∧ (metronomeTouch s active).settingChange = true) ∧
    (active = 0 → (metronomeTouch s active).settingChange = false) ∧
    (active > 0 → s.settingChange = true → (metronomeTouch s active).settingChange = true) := by
  unfold metronomeTouch edgeEffect
  dsimp only
  cases hl : s.settingChange <;> split_ifs <;> simp_all <;> omega

theorem metronomePoll_latch (s : State) (TMR0 : Fin 4 → Nat) :
    (edgeEffect s (metronomePoll s TMR0) = true ↔
      s.settingChange = false ∧ (metronomePoll s TMR0).settingChange = true) ∧
    ((touchInput s TMR0).2 = 0 → (metronomePoll s TMR0).settingChange = false) ∧
    ((touchInput s TMR0).2 > 0 → s.settingChange = true →
      (metronomePoll s TMR0).settingChange = true) := by
  have h := metronomeTouch_latch (touchInput s TMR0).1 (touchInput s TMR0).2
  have e0 : (touchInput s TMR0).1.settingChange = s.settingChange := by
    simp [touchInput_keeps]
  have e1 : edgeEffect (touchInput s TMR0).1 (metronomePoll s TMR0) =
      edgeEffect s (metronomePoll s TMR0) := by
    simp [edgeEffect, touchInput_keeps]
  rw [e0] at h
  unfold metronomePoll at e1 ⊢
  dsimp only at e1 ⊢
  rw [e1] at h
  exact h

theorem beatsChanged_le (s s' : State) (h : beatsChanged s s' = true) :
    edgeEffect s s' = true := by
  unfold beatsChanged at h
  unfold edgeEffect
  simp only [decide_eq_true_eq] at h ⊢
  exact Or.inl h

/-- With the latch set, a sequence of active polls fires no edge-type action. -/
theorem countPolls_latched (s : State) (polls : List (Fin 4 → Nat))
    (hl : s.settingChange = true) (hact : allActive s polls = true) :
    countPolls edgeEffect s polls = 0 ∧ countPolls beatsChanged s polls = 0 := by
  induction polls generalizing s with
  | nil => exact ⟨rfl, rfl⟩
  | cons T Ts ih =>
    simp only [allActive, Bool.and_eq_true, decide_eq_true_eq] at hact
    obtain ⟨hedge, -, hkeep⟩ := metronomePoll_latch s T
    have hl' := hkeep hact.1 hl
    have hno : ¬ edgeEffect s (metronomePoll s T) = true := by
      intro h
      have := (hedge.1 h).1
      rw [hl] at this
      exact absurd this (by decide)
    have hno' : ¬ beatsChanged s (metronomePoll s T) = true :=
      fun h => hno (beatsChanged_le _ _ h)
    obtain ⟨ih1, ih2⟩ := ih (metronomePoll s T) hl' hact.2
    simp [countPolls, hno, hno', ih1, ih2]

theorem countPolls_edge_le_one (s : State) (polls : List (Fin 4 → Nat))
    (hact : allActive s polls = true) : countPolls edgeEffect s polls ≤ 1 := by
  induction polls generalizing s with
  | nil => exact Nat.zero_le 1
  | cons T Ts ih =>
    simp only [allActive, Bool.and_eq_true, decide_eq_true_eq] at hact
    simp only [countPolls]
    by_cases hfire : edgeEffect s (metronomePoll s T) = true
    · have hl' := ((metronomePoll_latch s T).1.1 hfire).2
      rw [if_pos hfire, (countPolls_latched _ Ts hl' hact.2).1]
    · rw [if_neg hfire, Nat.zero_add]
      exact ih _ hact.2

theorem held0_allActive (s : State) (polls : List (Fin 4 → Nat))
    (h : held0 s polls = true) : allActive s polls = true := by
  induction polls generalizing s with
  | nil => rfl
  | cons T Ts ih =>
    simp only [held0, Bool.and_eq_true, decide_eq_true_eq] at h
    simp only [allActive, Bool.and_eq_true, decide_eq_true_eq]
    exact ⟨touchInput_active_pos s T 0 h.1, ih _ h.2⟩

/-- The beats-per-measure action always changes `beats`. -/
theorem metronomePoll_adjust_changes (s : State) (TMR0 : Fin 4 → Nat)
    (h0 : (touchInput s TMR0).1.Ttarget 0 = 1) (hl : s.settingChange = false) :
    (metronomePoll s TMR0).beats ≠ s.beats ∧ (metronomePoll s TMR0).settingChange = true := by
  have e0 : (touchInput s TMR0).1.settingChange = false := by simp [touchInput_keeps, hl]
  have e1 : (touchInput s TMR0).1.beats = s.beats := by simp [touchInput_keeps]
  obtain ⟨hb, -, hlatch, -⟩ := metronomeTouch_adjust _ _ (touchInput_active_pos s TMR0 0 h0) h0 e0
  rw [e1] at hb
  unfold metronomePoll
  dsimp only
  refine ⟨?_, hlatch⟩
  rw [hb]
  split_ifs <;> omega

/-- The running toggle of `metronomeTouch`. -/
theorem metronomeTouch_toggle (s : State) (active : Nat) (ha : active > 0)
    (h0 : s.Ttarget 0 ≠ 1) (h1 : s.Ttarget 1 ≠ 1) (h2 : s.Ttarget 2 ≠ 1)
    (h3 : s.Ttarget 3 = 1) (hl : s.settingChange = false) :
    (metronomeTouch s active).beatOn = (!s.beatOn) ∧
    (metronomeTouch s active).settingChange = true := by
  unfold metronomeTouch
  rw [if_pos ha, if_neg (fun h => h0 h.1), if_neg h1, if_neg h2, if_pos ⟨h3, hl⟩]
  exact ⟨rfl, rfl⟩

/-- C15: in a poll cycle an edge-type action takes effect exactly when the
latch goes from clear to set; the latch is cleared by every cycle with
`touchInput() == 0` and kept set by every cycle with `touchInput() > 0`;
sensor 0 tripped with the latch clear changes `beats` and sets the latch, and
sensor 3 tripped alone with the latch clear toggles `beatOn` and sets the
latch.  Hence over a run of cycles that all have `touchInput() > 0` at most
one edge-type action takes effect, and holding sensor 0 for a non-empty run
from a clear latch changes `beats` in exactly one cycle. -/
theorem edge_actions_once (st : State) (polls : List (Fin 4 → Nat))
    (hact : allActive st polls = true) :
    countPolls edgeEffect st polls ≤ 1 ∧
    (∀ (s : State) (TMR0 : Fin 4 → Nat),
      (edgeEffect s (metronomePoll s TMR0) = true ↔
        s.settingChange = false ∧ (metronomePoll s TMR0).settingChange = true) ∧
      ((touchInput s TMR0).2 = 0 → (metronomePoll s TMR0).settingChange = false) ∧
      ((touchInput s TMR0).2 > 0 → s.settingChange = true →
        (metronomePoll s TMR0).settingChange = true)) ∧
    (∀ (s : State) (TMR0 : Fin 4 → Nat),
      (touchInput s TMR0).1.Ttarget 0 = 1 → s.settingChange = false →
      (metronomePoll s TMR0).beats ≠ s.beats ∧ (metronomePoll s TMR0).settingChange = true) ∧
    (∀ (s : State) (TMR0 : Fin 4 → Nat),
      (touchInput s TMR0).1.Ttarget 3 = 1 → (touchInput s TMR0).1.Ttarget 0 ≠ 1 →
      (touchInput s TMR0).1.Ttarget 1 ≠ 1 → (touchInput s TMR0).1.Ttarget 2 ≠ 1 →
      s.settingChange = false →
      (metronomePoll s TMR0).beatOn = (!s.beatOn) ∧
      (metronomePoll s TMR0).settingChange = true) ∧
    (held0 st polls = true → st.settingChange = false → polls ≠ [] →
      countPolls beatsChanged st polls = 1 ∧ countPolls edgeEffect st polls = 1) := by
  refine ⟨countPolls_edge_le_one st polls hact, metronomePoll_latch,
    metronomePoll_adjust_changes, ?_, ?_⟩
  · intro s TMR0 h3 h0 h1 h2 hl
    have e0 : (touchInput s TMR0).1.settingChange = false := by simp [touchInput_keeps, hl]
    have e4 : (touchInput s TMR0).1.beatOn = s.beatOn := by simp [touchInput_keeps]
    obtain ⟨hon, hlatch⟩ := metronomeTouch_toggle _ _
      (touchInput_active_pos s TMR0 3 h3) h0 h1 h2 h3 e0
    rw [e4] at hon
    exact ⟨hon, hlatch⟩
  · intro hheld hl hne
    cases polls with
    | nil => exact absurd rfl hne
    | cons T Ts =>
      simp only [held0, Bool.and_eq_true, decide_eq_true_eq] at hheld
      simp only [allActive, Bool.and_eq_true, decide_eq_true_eq] at hact
      obtain ⟨hchg, hlatch⟩ := metronomePoll_adjust_changes st T hheld.1 hl
      obtain ⟨r1, r2⟩ := countPolls_latched _ Ts hlatch hact.2
      have hb : beatsChanged st (metronomePoll st T) = true := by
        unfold beatsChanged
        simpa using hchg
      have he := beatsChanged_le _ _ hb
      simp [countPolls, hb, he, r1, r2]

/-- Sensor 0 held for three polls from the calibrated initial state: `beats`
changes in exactly one of them, an instance of C15. -/
theorem edge_actions_once_witness :
    (allActive calibrated [touch0, touch0, touch0] = true ∧
      held0 calibrated [touch0, touch0, touch0] = true ∧
      calibrated.settingChange = false) ∧
    countPolls beatsChanged calibrated [touch0, touch0, touch0] = 1 :=
  ⟨by decide,
   ((edge_actions_once calibrated [touch0, touch0, touch0] (by decide)).2.2.2.2
      (by decide) (by decide) (by decide)).1⟩

/-! ## Calibration -/

theorem sampleLoop_eq_sum (r : Nat → Nat) (c acc : Nat)
    (hr : ∀ k, k < c → r (k + 1) < 256)
    (hacc : acc + Finset.sum (Finset.range c) (fun k => r (k + 1)) < 65536) :
    sampleLoop r c acc = acc + Finset.sum (Finset.range c) (fun k => r (k + 1)) := by
  induction c generalizing acc with
  | zero => simp [sampleLoop]
  | succ n ih =>
    rw [Finset.sum_range_succ] at hacc ⊢
    have h1 : r (n + 1) % 256 = r (n + 1) := Nat.mod_eq_of_lt (hr n (Nat.lt_succ_self n))
    have h2 : (acc + r (n + 1)) % 65536 = acc + r (n + 1) := Nat.mod_eq_of_lt (by omega)
    simp only [sampleLoop]
    rw [h1, h2, ih (acc + r (n + 1)) (fun k hk => hr k (Nat.lt_succ_of_lt hk)) (by omega)]
    omega

theorem sum_le_of_bound (r : Nat → Nat) (c : Nat) (hr : ∀ k, k < c → r (k + 1) < 256) :
    Finset.sum (Finset.range c) (fun k => r (k + 1)) ≤ 255 * c := by
  induction c with
  | zero => simp
  | succ n ih =>
    rw [Finset.sum_range_succ]
    have h1 := hr n (Nat.lt_succ_self n)
    have h2 := ih (fun k hk => hr k (Nat.lt_succ_of_lt hk))
    omega

theorem initBody_Tavg (r : Nat → Nat) (i j : Fin 4) (st : State) :
    (initBody r i st).Tavg j =
      if j = i then (sampleLoop r 16 0 / 16) % 256 else st.Tavg j := by
  unfold initBody
  simp [setAt_apply]

theorem initTouch_Tavg (st : State) (TMR0 : Fin 4 → Nat → Nat) (i : Fin 4) :
    (initTouch st TMR0).Tavg i = (sampleLoop (TMR0 i) 16 0 / 16) % 256 := by
  unfold initTouch
  fin_cases i <;> simp [List.foldl, initBody_Tavg]

/-- C16: when the 16 calibration readings of sensor `i` are in 0..255,
`initTouch` sets `Tavg[i]` to the floor of their sum divided by 16; the
accumulator ends at the exact sum, which is at most 4080 and so below 65536,
the quotient is below 256, and the result does not depend on the state before
the call; so calibrating again with the same readings gives the same
baseline. -/
theorem initTouch_mean (st : State) (TMR0 : Fin 4 → Nat → Nat) (i : Fin 4)
    (h : ∀ c, 1 ≤ c → c ≤ 16 → TMR0 i c < 256) :
    (initTouch st TMR0).Tavg i = sampleSum (TMR0 i) / 16 ∧
    sampleLoop (TMR0 i) 16 0 = sampleSum (TMR0 i) ∧
    sampleSum (TMR0 i) ≤ 4080 ∧
    sampleSum (TMR0 i) / 16 < 256 ∧
    (∀ st2 : State, (initTouch st2 TMR0).Tavg i = (initTouch st TMR0).Tavg i) ∧
    (initTouch (initTouch st TMR0) TMR0).Tavg i = (initTouch st TMR0).Tavg i := by
  have hr : ∀ k, k < 16 → TMR0 i (k + 1) < 256 := fun k hk => h (k + 1) (by omega) (by omega)
  have hle : sampleSum (TMR0 i) ≤ 4080 := by
    have := sum_le_of_bound (TMR0 i) 16 hr
    unfold sampleSum
    omega
  have hloop : sampleLoop (TMR0 i) 16 0 = sampleSum (TMR0 i) := by
    have := sampleLoop_eq_sum (TMR0 i) 16 0 hr (by unfold sampleSum at hle; omega)
    rw [this]
    unfold sampleSum
    omega
  refine ⟨?_, hloop, hle, by omega, ?_, ?_⟩
  · rw [initTouch_Tavg, hloop]
    exact Nat.mod_eq_of_lt (by omega)
  · intro st2
    rw [initTouch_Tavg, initTouch_Tavg]
  · rw [initTouch_Tavg, initTouch_Tavg]

/-- Sensor 2 reading 93, 92, 93, ... over the 16 passes is calibrated to
floor(1480 / 16) = 92: an instance of C16. -/
theorem initTouch_mean_witness :
    (initTouch initialState calibCounts).Tavg 2 = sampleSum (calibCounts 2) / 16 ∧
    (initTouch initialState calibCounts).Tavg 2 = 92 :=
  ⟨(initTouch_mean initialState calibCounts 2 (fun c _ _ => by
      unfold calibCounts
      have : (c + 1) % 2 < 2 := Nat.mod_lt _ (by decide)
      simp only [Fin.val_two]
      omega)).1,
   by decide⟩

/-! ## Beat generation -/

theorem makeBeat_tone (s : State) (counts : Nat) :
    (makeBeat s counts).PR2 = (if s.beat = 0 then 68 else 136) ∧
    (makeBeat s counts).CCPR1L = (if s.beat = 0 then 34 else 68) ∧
    (makeBeat s counts).TMR2ON = false := by
  unfold makeBeat
  dsimp only
  split_ifs <;> simp_all

/-- Calls of `makeBeat` that end a measure: the tones after the first are low
and the index is back at 0. -/
theorem beatRun_to_measure_end (s : State) (counts : List Nat)
    (hlen : s.beat + counts.length = s.beats) (hne : counts ≠ []) (hlt : s.beats < 256) :
    (beatRun s counts).beat = 0 ∧ (beatRun s counts).beats = s.beats ∧
    beatTones s counts =
      (if s.beat = 0 then 68 else 136) :: List.replicate (counts.length - 1) 136 := by
  induction counts generalizing s with
  | nil => exact absurd rfl hne
  | cons c cs ih =>
    have hbeats : (makeBeat s c).beats = s.beats := by simp [makeBeat_keeps]
    have hmod : (s.beat + 1) % 256 = s.beat + 1 := by
      apply Nat.mod_eq_of_lt
      simp only [List.length_cons] at hlen
      omega
    have hbeat := makeBeat_beat s c
    rw [hmod] at hbeat
    obtain ⟨htone, -, -⟩ := makeBeat_tone s c
    cases cs with
    | nil =>
      simp only [List.length_cons, List.length_nil] at hlen
      rw [if_pos (by omega)] at hbeat
      simp [beatRun, beatTones, hbeat, hbeats, htone]
    | cons c2 rest =>
      simp only [List.length_cons] at hlen
      rw [if_neg (by omega)] at hbeat
      obtain ⟨r1, r2, r3⟩ := ih (makeBeat s c)
        (by rw [hbeat, hbeats]; simp only [List.length_cons]; omega)
        (List.cons_ne_nil c2 rest) (hbeats ▸ hlt)
      have hnz : ¬ (makeBeat s c).beat = 0 := by omega
      rw [if_neg hnz] at r3
      refine ⟨r1, r2.trans hbeats, ?_⟩
      simp only [beatTones] at r3 ⊢
      rw [r3, htone]
      simp [List.replicate_succ]

/-- C17: `makeBeat` leaves the high tone (period 68, duty 34) exactly when
`beat` was 0 on entry and the low tone (136, 68) otherwise, then sets `beat`
to `beat + 1`, or to 0 when that equals `beats`.  With `beats = n` in 1..8 and
`beat = 0`, `n` consecutive calls give the high tone once, on the first call,
and bring `beat` back to 0. -/
theorem makeBeat_accent (st : State) (counts : List Nat)
    (hbeat : st.beat = 0) (hbeats : st.beats = counts.length)
    (h1 : 1 ≤ counts.length) (h8 : counts.length ≤ 8) :
    (∀ (s : State) (c : Nat),
      ((makeBeat s c).PR2 = 68 ∧ (makeBeat s c).CCPR1L = 34 ↔ s.beat = 0) ∧
      (s.beat ≠ 0 → (makeBeat s c).PR2 = 136 ∧ (makeBeat s c).CCPR1L = 68) ∧
      (makeBeat s c).beat =
        (if (s.beat + 1) % 256 = s.beats then 0 else (s.beat + 1) % 256) ∧
      (s.beat < s.beats → s.beats ≤ 8 → (makeBeat s c).beat = (s.beat + 1) % s.beats) ∧
      (makeBeat s c).beats = s.beats) ∧
    beatTones st counts = 68 :: List.replicate (counts.length - 1) 136 ∧
    (beatTones st counts).count 68 = 1 ∧
    (beatRun st counts).beat = 0 ∧
    (beatRun st counts).beats = counts.length := by
  have hne : counts ≠ [] := by
    intro h
    rw [h] at h1
    simp at h1
  obtain ⟨r1, r2, r3⟩ := beatRun_to_measure_end st counts (by rw [hbeat, hbeats]; omega) hne
    (by omega)
  rw [if_pos hbeat] at r3
  refine ⟨?_, r3, ?_, r1, r2.trans hbeats⟩
  · intro s c
    obtain ⟨hp, hc, -⟩ := makeBeat_tone s c
    refine ⟨?_, ?_, makeBeat_beat s c, ?_, by simp [makeBeat_keeps]⟩
    · rw [hp, hc]
      by_cases hz : s.beat = 0 <;> simp [hz]
    · intro hz
      rw [hp, hc, if_neg hz, if_neg hz]
      exact ⟨rfl, rfl⟩
    · intro hlt h8'
      have hmod : (s.beat + 1) % 256 = s.beat + 1 := Nat.mod_eq_of_lt (by omega)
      rw [makeBeat_beat, hmod]
      split_ifs with he
      · rw [he, Nat.mod_self]
      · exact (Nat.mod_eq_of_lt (by omega)).symm
  · rw [r3]
    simp [List.count_cons, List.count_replicate]

/-- Three beats per measure: three calls give the tones 68, 136, 136 and end
at beat 0, an instance of C17. -/
theorem makeBeat_accent_witness :
    ({ initialState with beats := 3 } : State).beat = 0 ∧
    beatTones { initialState with beats := 3 } [980, 980, 980] = [68, 136, 136] ∧
    (beatRun { initialState with beats := 3 } [980, 980, 980]).beat = 0 :=
  ⟨by decide,
   (makeBeat_accent { initialState with beats := 3 } [980, 980, 980] (by decide) (by decide)
      (by decide) (by decide)).2.1,
   (makeBeat_accent { initialState with beats := 3 } [980, 980, 980] (by decide) (by decide)
      (by decide) (by decide)).2.2.2.1⟩

/-! ## What a mode switch leaves alone -/

theorem pianoSwitch_beatOn (st : State) (S1 : Bool) :
    (pianoSwitch st S1).beatOn =
      (if S1 = false ∧ st.modeSwitch = false then true else st.beatOn) := by
  unfold pianoSwitch
  split_ifs <;> rfl

/-- C18 as stated fails: at the button check of the off loop, with the latch
clear, the Off to Piano action turns `CPSON` from 0 to 1, so it does not write
`mode` and `modeSwitch` only; the same holds for the whole iteration of the
off loop. -/
theorem off_switch_writes_CPSON :
    dozing.modeSwitch = false ∧
    dozing.CPSON = false ∧
    (offSwitch dozing false).CPSON = true ∧
    offSwitch dozing false ≠ { dozing with modeSwitch := true, mode := piano } ∧
    (offIter dozing pressIn).CPSON ≠ dozing.CPSON := by
  refine ⟨by decide, by decide, by decide, ?_, by decide⟩
  intro h
  exact absurd (congrArg State.CPSON h) (by decide)

/-- C18, amended: with the latch clear, the switch action of each loop on a
pressed reading leaves `beat`, `beats`, `bpm`, `note` and the four baselines
unchanged.  Metronome to Off writes `modeSwitch` and `mode` only; Piano to
Metronome writes these and sets `beatOn` to true whatever it was; Off to Piano
writes these and the power registers (`SWDTEN = 0`, `CPSON = 1`).  The whole
iteration of the off loop that switches changes nothing else, and the
iteration of the piano loop that switches ends in Metronome with `beatOn`
true and `beat`, `beats`, `bpm` as they were. -/
theorem mode_switch_frame (st : State) (hl : st.modeSwitch = false) :
    offSwitch st false =
      { st with SWDTEN := false, CPSON := true, modeSwitch := true, mode := piano } ∧
    pianoSwitch st false = { st with modeSwitch := true, mode := metronome, beatOn := true } ∧
    metronomeSwitch st false = { st with modeSwitch := true, mode := off } ∧
    ((offSwitch st false).beat = st.beat ∧ (offSwitch st false).beats = st.beats ∧
      (offSwitch st false).bpm = st.bpm ∧ (offSwitch st false).note = st.note ∧
      (offSwitch st false).Tavg = st.Tavg ∧ (offSwitch st false).beatOn = st.beatOn ∧
      (offSwitch st false).SWDTEN = false ∧ (offSwitch st false).CPSON = true) ∧
    ((pianoSwitch st false).beat = st.beat ∧ (pianoSwitch st false).beats = st.beats ∧
      (pianoSwitch st false).bpm = st.bpm ∧ (pianoSwitch st false).note = st.note ∧
      (pianoSwitch st false).Tavg = st.Tavg ∧ (pianoSwitch st false).beatOn = true ∧
      (pianoSwitch st false).SWDTEN = st.SWDTEN ∧ (pianoSwitch st false).CPSON = st.CPSON) ∧
    ((metronomeSwitch st false).beat = st.beat ∧ (metronomeSwitch st false).beats = st.beats ∧
      (metronomeSwitch st false).bpm = st.bpm ∧ (metronomeSwitch st false).note = st.note ∧
      (metronomeSwitch st false).Tavg = st.Tavg ∧
      (metronomeSwitch st false).beatOn = st.beatOn ∧
      (metronomeSwitch st false).SWDTEN = st.SWDTEN ∧
      (metronomeSwitch st false).CPSON = st.CPSON) ∧
    (∀ inp : Input, pressed inp →
      offIter st inp =
        { st with SWDTEN := false, CPSON := true, modeSwitch := true, mode := piano }) ∧
    (∀ inp : Input, inp.S1a = false →
      (pianoIter st inp).mode = metronome ∧ (pianoIter st inp).beatOn = true ∧
      (pianoIter st inp).beat = st.beat ∧ (pianoIter st inp).beats = st.beats ∧
      (pianoIter st inp).bpm = st.bpm) := by
  have h1 : offSwitch st false =
      { st with SWDTEN := false, CPSON := true, modeSwitch := true, mode := piano } := by
    unfold offSwitch
    rw [if_pos ⟨rfl, hl⟩]
  have h2 : pianoSwitch st false =
      { st with modeSwitch := true, mode := metronome, beatOn := true } := by
    unfold pianoSwitch
    rw [if_pos ⟨rfl, hl⟩]
  have h3 : metronomeSwitch st false = { st with modeSwitch := true, mode := off } := by
    unfold metronomeSwitch
    rw [if_pos ⟨rfl, hl⟩]
  refine ⟨h1, h2, h3, ?_, ?_, ?_, ?_, ?_⟩
  · rw [h1]
    exact ⟨rfl, rfl, rfl, rfl, rfl, rfl, rfl, rfl⟩
  · rw [h2]
    exact ⟨rfl, rfl, rfl, rfl, rfl, rfl, rfl, rfl⟩
  · rw [h3]
    exact ⟨rfl, rfl, rfl, rfl, rfl, rfl, rfl, rfl⟩
  · intro inp hp
    have hnap : (offNap st).modeSwitch = false := hl
    unfold offIter
    rw [hp.1, hp.2]
    unfold offSwitch
    rw [if_pos ⟨rfl, hnap⟩]
    rfl
  · intro inp ha
    have hlatch : (pianoNote (touchInput st inp.TMR0).1 (touchInput st inp.TMR0).2).modeSwitch
        = false := by
      simp [pianoNote_keeps, touchInput_keeps, hl]
    refine ⟨?_, ?_, ?_, ?_, ?_⟩
    · simp [pianoIter, playNote_keeps, releaseLatch_keeps, pianoSwitch_mode, hlatch, ha]
    · simp [pianoIter, playNote_keeps, releaseLatch_keeps, pianoSwitch_beatOn, hlatch, ha]
    · simp [pianoIter, playNote_keeps, releaseLatch_keeps, pianoSwitch_keeps, pianoNote_keeps,
        touchInput_keeps]
    · simp [pianoIter, playNote_keeps, releaseLatch_keeps, pianoSwitch_keeps, pianoNote_keeps,
        touchInput_keeps]
    · simp [pianoIter, playNote_keeps, releaseLatch_keeps, pianoSwitch_keeps, pianoNote_keeps,
        touchInput_keeps]

/-- A press at the button check of the off loop: the Off to Piano action
switches the capacitive sensing module back on and keeps the tempo, an
instance of the amended C18. -/
theorem mode_switch_frame_witness :
    dozing.modeSwitch = false ∧
    (offSwitch dozing false).CPSON = true ∧
    (offSwitch dozing false).bpm = 60 ∧
    (offIter dozing pressIn).mode = piano :=
  ⟨by decide,
   (mode_switch_frame dozing (by decide)).2.2.2.1.2.2.2.2.2.2.2,
   (mode_switch_frame dozing (by decide)).2.2.2.1.2.2.1,
   congrArg State.mode ((mode_switch_frame dozing (by decide)).2.2.2.2.2.2.1 pressIn
     (by decide))⟩

/-! ## Piano notes by formula -/

theorem pianoIter_note_tableNote (st : State) (inp : Input) :
    (pianoIter st inp).note =
      tableNote (decide ((pianoIter st inp).Ttarget 0 = 1))
        (decide ((pianoIter st inp).Ttarget 1 = 1))
        (decide ((pianoIter st inp).Ttarget 2 = 1))
        (decide ((pianoIter st inp).Ttarget 3 = 1)) := by
  rw [pianoIter_note, pianoIter_Ttarget]
  unfold pianoNote tableNote
  rw [touchInput_snd, touchInput_Tactive]
  simp only [touchInput_Ttarget]
  by_cases h0 : sensorTripped (st.Tavg 0) (inp.TMR0 0) <;>
  by_cases h1 : sensorTripped (st.Tavg 1) (inp.TMR0 1) <;>
  by_cases h2 : sensorTripped (st.Tavg 2) (inp.TMR0 2) <;>
  by_cases h3 : sensorTripped (st.Tavg 3) (inp.TMR0 3) <;>
  simp [h0, h1, h2, h3]

theorem pattern4_eta (p : Fin 4 → Bool) : pattern4 (p 0) (p 1) (p 2) (p 3) = p := by
  funext i
  fin_cases i <;> rfl

theorem tableNote_eq_formula (s0 s1 s2 s3 : Bool) :
    tableNote s0 s1 s2 s3 = formulaNote (pattern4 s0 s1 s2 s3) ∧
    tableNote s0 s1 s2 s3 ≤ 7 ∧
    (tableNote s0 s1 s2 s3 = 0 ↔ s0 = false ∧ s1 = false ∧ s2 = false ∧ s3 = false) := by
  revert s0 s1 s2 s3
  decide

theorem playNote_tone (s : State) (h8 : s.note ≠ 8) :
    ((playNote s).TMR2ON = true → (playNote s).PR2 ≠ 68) ∧
    ((playNote s).TMR2ON = true ↔ 1 ≤ s.note ∧ s.note ≤ 7) := by
  unfold playNote
  split_ifs <;> simp_all
  omega

/-- C19: after an iteration of the piano loop, whatever `note` was before,
`note` is 0 exactly when no sensor is reported tripped and otherwise is
`7 - 2*i - t` for the lowest tripped sensor `i` (`t = 1` when sensor `i + 1`
exists and is tripped); so a non-empty pattern gives a note in 1..7, `note`
is never 8, and the tone output is on exactly for the notes 1..7 and never
with the period 68 of the `note == 8` branch. -/
theorem pianoIter_note_formula (st : State) (inp : Input) :
    (pianoIter st inp).note =
      formulaNote (fun i => decide ((pianoIter st inp).Ttarget i = 1)) ∧
    ((pianoIter st inp).note = 0 ↔ ∀ i, (pianoIter st inp).Ttarget i ≠ 1) ∧
    ((∃ i, (pianoIter st inp).Ttarget i = 1) →
      1 ≤ (pianoIter st inp).note ∧ (pianoIter st inp).note ≤ 7) ∧
    (pianoIter st inp).note ≤ 7 ∧
    (pianoIter st inp).note ≠ 8 ∧
    ((pianoIter st inp).TMR2ON = true ↔ 1 ≤ (pianoIter st inp).note) ∧
    ((pianoIter st inp).TMR2ON = true → (pianoIter st inp).PR2 ≠ 68) := by
  have htab := pianoIter_note_tableNote st inp
  obtain ⟨hform, hle, hzero⟩ := tableNote_eq_formula
    (decide ((pianoIter st inp).Ttarget 0 = 1)) (decide ((pianoIter st inp).Ttarget 1 = 1))
    (decide ((pianoIter st inp).Ttarget 2 = 1)) (decide ((pianoIter st inp).Ttarget 3 = 1))
  rw [← htab] at hform hle hzero
  have heta := pattern4_eta (fun i => decide ((pianoIter st inp).Ttarget i = 1))
  rw [heta] at hform
  have hz : (pianoIter st inp).note = 0 ↔ ∀ i, (pianoIter st inp).Ttarget i ≠ 1 := by
    rw [hzero]
    simp only [decide_eq_false_iff_not]
    constructor
    · rintro ⟨h0, h1, h2, h3⟩ i
      fin_cases i
      · exact h0
      · exact h1
      · exact h2
      · exact h3
    · intro h
      exact ⟨h 0, h 1, h 2, h 3⟩
  have hplay : pianoIter st inp =
      playNote (releaseLatch (pianoSwitch
        (pianoNote (touchInput st inp.TMR0).1 (touchInput st inp.TMR0).2) inp.S1a) inp.S1b) := rfl
  have hnote : (releaseLatch (pianoSwitch
        (pianoNote (touchInput st inp.TMR0).1 (touchInput st inp.TMR0).2) inp.S1a) inp.S1b).note
      = (pianoIter st inp).note := by
    rw [pianoIter_note]
    simp [releaseLatch_keeps, pianoSwitch_keeps]
  have h8 : (pianoIter st inp).note ≠ 8 := by omega
  obtain ⟨hp1, hp2⟩ := playNote_tone _ (hnote ▸ h8)
  rw [← hplay, hnote] at hp2
  rw [← hplay] at hp1
  refine ⟨hform, hz, ?_, hle, h8, ?_, hp1⟩
  · rintro ⟨i, hi⟩
    refine ⟨?_, hle⟩
    by_contra hlt
    have h0 : (pianoIter st inp).note = 0 := by omega
    exact (hz.1 h0) i hi
  · rw [hp2]
    constructor
    · exact fun h => h.1
    · exact fun h => ⟨h, hle⟩

/-! ## The delay table -/

/-- C20: every entry of `beatDelay` is 60000 / (40 + 5 i) rounded to the
nearest integer, that is `|beatDelay[i] * (40 + 5 i) - 60000| * 2 ≤ 40 + 5 i`;
the table has 41 entries, is strictly decreasing, and every entry exceeds the
20 ms tone, so the count passed to `makeBeat` is the positive number
`beatDelay[i] - 20` without wrap-around. -/
theorem beatDelay_rounded :
    beatDelay.length = 41 ∧
    (∀ i : Fin beatDelay.length,
      |beatDelay.get i * (40 + 5 * (i.val : Int)) - 60000| * 2 ≤ 40 + 5 * (i.val : Int)) ∧
    (∀ i j : Fin beatDelay.length, i < j → beatDelay.get j < beatDelay.get i) ∧
    (∀ i : Fin beatDelay.length,
      0 < beatDelay.get i - 20 ∧ ((u16 (beatDelay.get i - 20) : Nat) : Int) = beatDelay.get i - 20) := by
  refine ⟨rfl, ?_, ?_, ?_⟩ <;> decide

/-! ## Slow decay of the baseline -/

/-- One `touchInput` cycle on a sensor whose sample `s` lies between the trip
point and the baseline `b`: the sensor is untripped, the baseline becomes
`b - b/16 + s/16`, the same bounds hold again, and the floor
`min b (16 * (s/16) + 15)` is unchanged. -/
theorem touchInput_decay_step (st : State) (TMR0 : Fin 4 → Nat) (i : Fin 4)
    (hb : st.Tavg i < 256) (hlo : st.Tavg i - st.Tavg i / 8 ≤ TMR0 i)
    (hhi : TMR0 i ≤ st.Tavg i) :
    (touchInput st TMR0).1.Ttarget i = 0 ∧
    (touchInput st TMR0).1.Tavg i = st.Tavg i - st.Tavg i / 16 + TMR0 i / 16 := by
  have hs : TMR0 i < 256 := by omega
  have hnt : ¬ sensorTripped (st.Tavg i) (TMR0 i) := by
    rw [sensorTripped_iff _ _ hb hs]
    omega
  have havg := sensorAvg_of_not_tripped (st.Tavg i) (TMR0 i) hb hs hnt
  rw [touchInput_Ttarget, touchInput_Tavg, havg, if_neg hnt, if_neg (by omega)]
  exact ⟨rfl, rfl⟩

/-- Arithmetic of one decay step from `b` towards the sample `s`. -/
theorem decay_arith (b s : Nat) (hb : b < 256) (hlo : b - b / 8 ≤ s) (hhi : s ≤ b) :
    b - b / 16 + s / 16 < 256 ∧
    (b - b / 16 + s / 16) - (b - b / 16 + s / 16) / 8 ≤ s ∧
    s ≤ b - b / 16 + s / 16 ∧
    b - b / 16 + s / 16 ≤ b ∧
    min (b - b / 16 + s / 16) (16 * (s / 16) + 15) = min b (16 * (s / 16) + 15) ∧
    (min b (16 * (s / 16) + 15) < b → b - b / 16 + s / 16 < b) ∧
    (b = min b (16 * (s / 16) + 15) → b - b / 16 + s / 16 = b) := by
  refine ⟨?_, ?_, ?_, ?_, ?_, ?_, ?_⟩ <;> omega

theorem touchRun_cons (st : State) (TMR0 : Fin 4 → Nat) (polls : List (Fin 4 → Nat)) :
    touchRun st (TMR0 :: polls) = touchRun (touchInput st TMR0).1 polls := rfl

/-- Repeated cycles with the constant sample `s` on sensor `i`: the bounds of
`touchInput_decay_step` hold after the run, the baseline has not risen, the
floor is the same, the last cycle left the sensor untripped, and once the run
is as long as the distance to the floor the baseline sits on it. -/
theorem touchRun_decay (st : State) (i : Fin 4) (s : Nat) (polls : List (Fin 4 → Nat))
    (hb : st.Tavg i < 256) (hlo : st.Tavg i - st.Tavg i / 8 ≤ s) (hhi : s ≤ st.Tavg i)
    (hs : ∀ T ∈ polls, T i = s) :
    (touchRun st polls).Tavg i < 256 ∧
    (touchRun st polls).Tavg i - (touchRun st polls).Tavg i / 8 ≤ s ∧
    s ≤ (touchRun st polls).Tavg i ∧
    (touchRun st polls).Tavg i ≤ st.Tavg i ∧
    min ((touchRun st polls).Tavg i) (16 * (s / 16) + 15) =
      min (st.Tavg i) (16 * (s / 16) + 15) ∧
    (polls ≠ [] → (touchRun st polls).Ttarget i = 0) ∧
    (st.Tavg i - min (st.Tavg i) (16 * (s / 16) + 15) ≤ polls.length →
      (touchRun st polls).Tavg i = min (st.Tavg i) (16 * (s / 16) + 15)) := by
  induction polls generalizing st with
  | nil =>
    refine ⟨hb, hlo, hhi, Nat.le_refl _, rfl, fun h => absurd rfl h, ?_⟩
    intro hlen
    simp only [List.length_nil] at hlen
    show st.Tavg i = _
    omega
  | cons T Ts ih =>
    have hT : T i = s := hs T (List.mem_cons_self T Ts)
    obtain ⟨htg, havg⟩ := touchInput_decay_step st T i hb (hT ▸ hlo) (hT ▸ hhi)
    rw [hT] at havg
    obtain ⟨a1, a2, a3, a4, a5, a6, a7⟩ := decay_arith (st.Tavg i) s hb hlo hhi
    rw [← havg] at a1 a2 a3 a4 a5 a6 a7
    obtain ⟨r1, r2, r3, r4, r5, r6, r7⟩ := ih (touchInput st T).1 a1 a2 a3
      (fun T' hT' => hs T' (List.mem_cons_of_mem T hT'))
    rw [touchRun_cons]
    refine ⟨r1, r2, r3, Nat.le_trans r4 a4, r5.trans a5, ?_, ?_⟩
    · intro _
      cases Ts with
      | nil => exact htg
      | cons T2 Ts2 => exact r6 (List.cons_ne_nil T2 Ts2)
    · intro hlen
      simp only [List.length_cons] at hlen
      rw [a5] at r7
      apply r7
      by_cases hlt : min (st.Tavg i) (16 * (s / 16) + 15) < st.Tavg i
      · have := a6 hlt
        omega
      · have hle : min (st.Tavg i) (16 * (s / 16) + 15) ≤ st.Tavg i := Nat.min_le_left _ _
        have := a7 (by omega)
        omega

/-- C21: for a sensor with 8-bit baseline `b` and a constant sample `s` with
`b - b/8 ≤ s ≤ b`, after any number of `touchInput` cycles the sensor is
untripped, the baseline lies between the floor `min b (16 * (s/16) + 15)` and
`b` and is at least `s`; a further cycle leaves the sensor untripped, never
raises the baseline, lowers it strictly while it is above the floor and keeps
it once on the floor; after at least `b - floor` cycles the baseline equals
the floor; the floor is at most `s + 15`, and from baseline 128 with sample
112 the baseline settles at 127, 15 counts above the sample. -/
theorem baseline_decay (st : State) (i : Fin 4) (s : Nat) (polls : List (Fin 4 → Nat))
    (hb : st.Tavg i < 256) (hlo : st.Tavg i - st.Tavg i / 8 ≤ s) (hhi : s ≤ st.Tavg i)
    (hs : ∀ T ∈ polls, T i = s) :
    (polls ≠ [] → (touchRun st polls).Ttarget i = 0) ∧
    min (st.Tavg i) (16 * (s / 16) + 15) ≤ (touchRun st polls).Tavg i ∧
    (touchRun st polls).Tavg i ≤ st.Tavg i ∧
    s ≤ (touchRun st polls).Tavg i ∧
    (∀ T : Fin 4 → Nat, T i = s →
      (touchInput (touchRun st polls) T).1.Ttarget i = 0 ∧
      (touchInput (touchRun st polls) T).1.Tavg i ≤ (touchRun st polls).Tavg i ∧
      (min (st.Tavg i) (16 * (s / 16) + 15) < (touchRun st polls).Tavg i →
        (touchInput (touchRun st polls) T).1.Tavg i < (touchRun st polls).Tavg i) ∧
      ((touchRun st polls).Tavg i = min (st.Tavg i) (16 * (s / 16) + 15) →
        (touchInput (touchRun st polls) T).1.Tavg i = min (st.Tavg i) (16 * (s / 16) + 15))) ∧
    (st.Tavg i - min (st.Tavg i) (16 * (s / 16) + 15) ≤ polls.length →
      (touchRun st polls).Tavg i = min (st.Tavg i) (16 * (s / 16) + 15)) ∧
    min (st.Tavg i) (16 * (s / 16) + 15) ≤ s + 15 ∧
    ((touchRun settled128 [steady112]).Tavg 0 = 127 ∧
      (touchRun settled128 [steady112, steady112, steady112]).Tavg 0 = 112 + 15) := by
  obtain ⟨r1, r2, r3, r4, r5, r6, r7⟩ := touchRun_decay st i s polls hb hlo hhi hs
  refine ⟨r6, by omega, r4, r3, ?_, r7, by omega, by decide⟩
  intro T hT
  obtain ⟨htg, havg⟩ := touchInput_decay_step (touchRun st polls) T i r1 (hT ▸ r2) (hT ▸ r3)
  rw [hT] at havg
  obtain ⟨-, -, -, a4, -, a6, a7⟩ := decay_arith ((touchRun st polls).Tavg i) s r1 r2 r3
  rw [← havg, r5] at a6 a7
  rw [← havg] at a4
  refine ⟨htg, a4, a6, fun h => ?_⟩
  rw [a7 h]
  exact h

/-- Baseline 100 with the sample held at 96: five cycles leave the baseline at
100, four counts above the sample, an instance of C21. -/
theorem baseline_decay_witness :
    (calibrated.Tavg 2 < 256 ∧ calibrated.Tavg 2 - calibrated.Tavg 2 / 8 ≤ 96 ∧
      96 ≤ calibrated.Tavg 2) ∧
    (touchRun calibrated [rest1, rest1, rest1, rest1, rest1]).Tavg 2 =
      min (calibrated.Tavg 2) (16 * (96 / 16) + 15) :=
  ⟨by decide,
   (baseline_decay calibrated 2 96 [rest1, rest1, rest1, rest1, rest1]
      (by decide) (by decide) (by decide) (by decide)).2.2.2.2.2.1 (by decide)⟩

end PianoMetronome
